import Mathlib

/-!
A shallow embedding of the `dynafield` dynamic-model builder
(`src/dynafield/fields/*.py`, `src/dynafield/from_func.py`,
`src/dynafield/record_schema.py`).

Modelling conventions:
* Python values that can appear as field defaults or in record dicts are the
  inductive `PyVal`.  Floats are carried opaquely as `Rat` (no float
  arithmetic occurs in the modelled code), `date`/`datetime` as `Int`
  ordinals, and `uuid.UUID` as `Nat`.
* `pydantic.Field(...)` results are `PFieldInfo`; its default state is
  `PDefault` (`ellipsis` for `Field(default=...)`, `unset` for `Field()`
  with no default — both of which pydantic treats as a required field —
  `value v` for `Field(default=v)` and `factory v` for a
  `Field(default_factory=f)` whose factory produces `v`).
* `ValueError` / `KeyError` / `NameError` raised by the Python code become
  `Except String` errors (the message text is abbreviated).
* Python dicts are association lists `List (String × PyVal)` with unique
  keys maintained by `dictAssign` (in-place value update, append for new
  keys), matching insertion-order semantics.
* String helpers `pyLower`/`pyUpper`/`pyCapitalize`/`pyTitle` model the
  ASCII behaviour of `str.lower`/`str.upper`/`str.capitalize`/`str.title`.
-/

namespace Dynafield

/-- A Python value as it occurs in field defaults and record dicts. -/
inductive PyVal where
  | vNone
  | vBool (b : Bool)
  | vInt (n : Int)
  | vFloat (q : Rat)
  | vStr (s : String)
  | vDate (ordinal : Int)
  | vDatetime (ordinal : Int)
  | vUuid (u : Nat)
  | vList (xs : List PyVal)
  | vDict (entries : List (String × PyVal))
  | vEnum (enumName : String) (memberName : String) (value : String)
deriving Repr

/-- A Python dict of record data (association list, unique keys). -/
abbrev Jdict := List (String × PyVal)

/-- ASCII model of `str.lower` (Python lowercases per-character). -/
def pyCharLower (c : Char) : Char :=
  if c.isUpper then Char.ofNat (c.toNat + 32) else c

/-- ASCII model of `str.upper`. -/
def pyCharUpper (c : Char) : Char :=
  if c.isLower then Char.ofNat (c.toNat - 32) else c

/-- ASCII model of `str.lower`. -/
def pyLower (s : String) : String := ⟨s.data.map pyCharLower⟩

/-- ASCII model of `str.upper`. -/
def pyUpper (s : String) : String := ⟨s.data.map pyCharUpper⟩

/-- ASCII model of `str.capitalize`: first character uppercased, the rest
lowercased. -/
def pyCapitalize (s : String) : String :=
  match s.data with
  | [] => ""
  | c :: cs => ⟨pyCharUpper c :: cs.map pyCharLower⟩

/-- ASCII model of `str.title`: each letter that follows a non-letter is
uppercased, every other letter is lowercased. -/
def pyTitle (s : String) : String :=
  let rec go : List Char → Bool → List Char
    | [], _ => []
    | c :: cs, prevAlpha =>
      if c.isAlpha then
        (if prevAlpha then pyCharLower c else pyCharUpper c) :: go cs true
      else
        c :: go cs false
  ⟨go s.data false⟩

/-- Whether `pat` occurs as a contiguous sublist (Python `in` on
strings). -/
def containsSub (pat : List Char) : List Char → Bool
  | [] => pat.isEmpty
  | c :: rest => List.isPrefixOf pat (c :: rest) || containsSub pat rest

/-- `"email" in name.lower()`: substring test used by the str heuristic of
`_choose_field_for` (`from_func.py`). -/
def containsEmail (name : String) : Bool :=
  containsSub "email".data (pyLower name).data

/-- Python dict assignment `m[k] = v`: updates the value in place when the
key exists (keeping its position), appends otherwise. -/
def dictAssign {κ α : Type} [DecidableEq κ] (m : List (κ × α)) (k : κ)
    (v : α) : List (κ × α) :=
  if m.any (fun p => p.1 = k) then
    m.map (fun p => if p.1 = k then (k, v) else p)
  else
    m ++ [(k, v)]

/-- Python dict union `a | b`: keys of `a` keep their position but take
`b`'s value when present; new keys of `b` are appended. -/
def dictOr (a b : Jdict) : Jdict :=
  a.map (fun p => match b.lookup p.1 with
    | some w => (p.1, w)
    | none => p) ++
  b.filter (fun p => (a.lookup p.1).isNone)

/-- `FieldTypeEnum` (`fields/base_field.py`): twelve members; it is a
`str`-Enum whose member *values* are the `...Gql` strings. -/
inductive FieldTypeEnum where
  | UuidField
  | StrField
  | EmailField
  | IntField
  | FloatField
  | BoolField
  | DateField
  | DateTimeField
  | JsonField
  | ListField
  | EnumField
  | ObjectField
deriving DecidableEq, Repr

namespace FieldTypeEnum

/-- The `.name` of each `FieldTypeEnum` member. -/
def name : FieldTypeEnum → String
  | .UuidField => "UuidField"
  | .StrField => "StrField"
  | .EmailField => "EmailField"
  | .IntField => "IntField"
  | .FloatField => "FloatField"
  | .BoolField => "BoolField"
  | .DateField => "DateField"
  | .DateTimeField => "DateTimeField"
  | .JsonField => "JsonField"
  | .ListField => "ListField"
  | .EnumField => "EnumField"
  | .ObjectField => "ObjectField"

/-- The `.value` of each member (as a `str`-Enum the member itself compares
equal to this string). -/
def value : FieldTypeEnum → String
  | .UuidField => "UuidFieldGql"
  | .StrField => "StrFieldGql"
  | .EmailField => "EmailFieldGql"
  | .IntField => "IntFieldGql"
  | .FloatField => "FloatFieldGql"
  | .BoolField => "BoolFieldGql"
  | .DateField => "DateFieldGql"
  | .DateTimeField => "DateTimeFieldGql"
  | .JsonField => "JsonFieldGql"
  | .ListField => "ListFieldGql"
  | .EnumField => "EnumFieldGql"
  | .ObjectField => "ObjectFieldGql"

/-- The members of `FieldTypeEnum` in definition order. -/
def members : List FieldTypeEnum :=
  [.UuidField, .StrField, .EmailField, .IntField, .FloatField, .BoolField,
   .DateField, .DateTimeField, .JsonField, .ListField, .EnumField,
   .ObjectField]

end FieldTypeEnum

/-- The default state of a `pydantic.Field(...)` (`FieldInfo`). -/
inductive PDefault where
  /-- `Field(default=...)` (Ellipsis): mandatory field. -/
  | ellipsis
  /-- `Field()` with no default at all: also a mandatory field. -/
  | unset
  /-- `Field(default=v)`; `value none` models `default=None`. -/
  | value (v : Option PyVal)
  /-- `Field(default_factory=f)`, modelled by the value `f` produces. -/
  | factory (v : PyVal)
deriving Repr

/-- A field is mandatory (pydantic requires it at validation) exactly when
it has neither a default nor a default factory. -/
def PDefault.isMandatory : PDefault → Bool
  | .ellipsis => true
  | .unset => true
  | .value _ => false
  | .factory _ => false

/-- The keyword arguments of a built `pydantic.Field` that the descriptors
use: default state, description, and the str/numeric constraints. -/
structure PFieldInfo where
  spec : PDefault
  description : Option String := none
  min_length : Option Int := none
  max_length : Option Int := none
  ge : Option Rat := none
  le : Option Rat := none
deriving Repr

/-- The Python value type a descriptor declares for its model field (the
`typ` component of `to_pydantic_field`'s result). -/
inductive PType where
  | str
  | int
  | float
  | bool
  | date
  | datetime
  /-- `pydantic.EmailStr` -/
  | email
  /-- `uuid.UUID` -/
  | uuid
  /-- `dict[str, Any]` -/
  | json
  /-- `list[Any]` -/
  | list
  /-- a dynamically created `enum.Enum` with the given (name, value) members -/
  | enumT (name : String) (members : List (String × String))
  /-- a dynamically created nested model (`create_model` result) -/
  | model (name : String) (defs : List (String × PType × PFieldInfo))
deriving Repr

/-- The `type_mapping` dict literal inside `FieldTypeEnum.to_py_type`
(`fields/base_field.py`), in source order: ten entries — `EnumField` and
`ObjectField` are absent. -/
def FieldTypeEnum.type_mapping : List (FieldTypeEnum × PType) :=
  [(.UuidField, .uuid), (.StrField, .str), (.EmailField, .email),
   (.IntField, .int), (.FloatField, .float), (.BoolField, .bool),
   (.DateField, .date), (.DateTimeField, .datetime), (.JsonField, .json),
   (.ListField, .list)]

/-- `FieldTypeEnum.to_py_type`: `type_mapping[self]`; a missing key
raises `KeyError`, modelled as `none`. -/
def FieldTypeEnum.to_py_type (e : FieldTypeEnum) : Option PType :=
  FieldTypeEnum.type_mapping.lookup e

/-- The attributes shared by every descriptor
(`DataTypeFieldBase` in `fields/base_field.py`): `id` is a UUID modelled
as `Nat`. -/
structure FieldBase where
  id : Nat := 0
  ref : Option String := none
  label : String
  description : Option String := none
  required : Bool := false
deriving Repr

/-- `StrFieldConstraints` (`fields/str_field.py`). -/
structure StrFieldConstraints where
  min_length : Option Int := none
  max_length : Option Int := none
deriving Repr

/-- `IntFieldConstraints` (`fields/int_field.py`). -/
structure IntFieldConstraints where
  ge_int : Option Int := none
  le_int : Option Int := none
deriving Repr

/-- `FloatFieldConstraints` (`fields/float_field.py`). -/
structure FloatFieldConstraints where
  ge_float : Option Rat := none
  le_float : Option Rat := none
deriving Repr

mutual

/-- `TypeFieldsUnion` (`record_schema.py`): the union of the twelve
descriptor classes, one constructor per class.  Each constructor carries
the `DataTypeFieldBase` attributes plus the class's own fields. -/
inductive TypeFieldsUnion where
  | boolF (base : FieldBase) (default_bool : Option Bool)
  | dateF (base : FieldBase) (default_date : Option Int)
  | datetimeF (base : FieldBase) (default_datetime : Option Int)
  | emailF (base : FieldBase) (default_email : Option String)
  | enumF (base : FieldBase) (allowed_values : Option (List String))
      (default_str : Option String)
  | floatF (base : FieldBase) (default_float : Option Rat)
      (constraints_float : Option FloatFieldConstraints)
  | intF (base : FieldBase) (default_int : Option Int)
      (constraints_int : Option IntFieldConstraints)
  | jsonF (base : FieldBase) (default_dict : Option Jdict)
  | listF (base : FieldBase) (default_list : Option (List PyVal))
  | strF (base : FieldBase) (default_str : Option String)
      (constraints_str : Option StrFieldConstraints)
  | uuidF (base : FieldBase) (default_uuid : Option Nat)
  /-- `ObjectField.fields : list[DataTypeFieldBase]` — any descriptor or a
  bare base instance. -/
  | objectF (base : FieldBase) (fields : List DynField)

/-- A `DataTypeFieldBase` instance as `build_dynamic_model` receives it:
either one of the twelve descriptor classes (which have
`to_pydantic_field`) or a bare base instance (which does not). -/
inductive DynField where
  | typed (f : TypeFieldsUnion)
  | plainBase (base : FieldBase)

end

namespace TypeFieldsUnion

/-- The `DataTypeFieldBase` part of a descriptor. -/
def base : TypeFieldsUnion → FieldBase
  | .boolF b _ => b
  | .dateF b _ => b
  | .datetimeF b _ => b
  | .emailF b _ => b
  | .enumF b _ _ => b
  | .floatF b _ _ => b
  | .intF b _ _ => b
  | .jsonF b _ => b
  | .listF b _ => b
  | .strF b _ _ => b
  | .uuidF b _ => b
  | .objectF b _ => b

/-- Which `FieldTypeEnum` member a descriptor class corresponds to. -/
def kind : TypeFieldsUnion → FieldTypeEnum
  | .boolF _ _ => .BoolField
  | .dateF _ _ => .DateField
  | .datetimeF _ _ => .DateTimeField
  | .emailF _ _ => .EmailField
  | .enumF _ _ _ => .EnumField
  | .floatF _ _ _ => .FloatField
  | .intF _ _ _ => .IntField
  | .jsonF _ _ => .JsonField
  | .listF _ _ => .ListField
  | .strF _ _ _ => .StrField
  | .uuidF _ _ => .UuidField
  | .objectF _ _ => .ObjectField

/-- The default value of each class's `typename__` discriminator field:
`StrField`, `IntField`, `FloatField` and `EnumField` use
`FieldTypeEnum.X.name`; `ObjectField` uses the literal `"ObjectField"`;
the remaining classes use the `FieldTypeEnum` member itself, which as a
`str`-Enum equals its `...Gql` value. -/
def typename : TypeFieldsUnion → String
  | .strF _ _ _ => FieldTypeEnum.StrField.name
  | .intF _ _ _ => FieldTypeEnum.IntField.name
  | .floatF _ _ _ => FieldTypeEnum.FloatField.name
  | .enumF _ _ _ => FieldTypeEnum.EnumField.name
  | .boolF _ _ => FieldTypeEnum.BoolField.value
  | .dateF _ _ => FieldTypeEnum.DateField.value
  | .datetimeF _ _ => FieldTypeEnum.DateTimeField.value
  | .emailF _ _ => FieldTypeEnum.EmailField.value
  | .jsonF _ _ => FieldTypeEnum.JsonField.value
  | .listF _ _ => FieldTypeEnum.ListField.value
  | .uuidF _ _ => FieldTypeEnum.UuidField.value
  | .objectF _ _ => "ObjectField"

end TypeFieldsUnion

/-- The `default` argument of `DataTypeFieldBase._build_field`: the
`_MISSING` sentinel, or an explicit value (possibly `None`). -/
inductive DefaultArg where
  | missing
  | given (v : Option PyVal)
deriving Repr

/-- The remaining keyword arguments forwarded to `pydantic.Field`. -/
structure FieldKwargs where
  min_length : Option Int := none
  max_length : Option Int := none
  ge : Option Rat := none
  le : Option Rat := none
deriving Repr

/-- Python truthiness of `self.description` (`if self.description:`):
`None` and the empty string are falsy. -/
def descrIfTruthy (d : Option String) : Option String :=
  match d with
  | some s => if s = "" then none else some s
  | none => none

/-- `DataTypeFieldBase._build_field` (`fields/base_field.py`): honors
`required` (raising `ValueError` on a conflicting non-None default or a
default factory) and otherwise builds a `pydantic.Field` from the default
or factory. -/
def _build_field (base : FieldBase) (default : DefaultArg)
    (default_factory : Option PyVal) (kw : FieldKwargs) :
    Except String PFieldInfo :=
  let desc := descrIfTruthy base.description
  if base.required then
    match default with
    | .given (some _) =>
        .error ("Required field '" ++ base.label ++
          "' cannot specify a default value.")
    | _ =>
        match default_factory with
        | some _ =>
            .error ("Required field '" ++ base.label ++
              "' cannot define a default factory.")
        | none =>
            .ok { spec := .ellipsis, description := desc,
                  min_length := kw.min_length, max_length := kw.max_length,
                  ge := kw.ge, le := kw.le }
  else
    match default_factory with
    | some v =>
        .ok { spec := .factory v, description := desc,
              min_length := kw.min_length, max_length := kw.max_length,
              ge := kw.ge, le := kw.le }
    | none =>
        match default with
        | .missing =>
            .ok { spec := .unset, description := desc,
                  min_length := kw.min_length, max_length := kw.max_length,
                  ge := kw.ge, le := kw.le }
        | .given v =>
            .ok { spec := .value v, description := desc,
                  min_length := kw.min_length, max_length := kw.max_length,
                  ge := kw.ge, le := kw.le }

/-- One entry of `create_model`'s keyword dict: field name, declared value
type, and the built `pydantic.Field`. -/
abbrev Entry := String × PType × PFieldInfo

/-- The member dict `{val.upper(): val for val in allowed_values}` of
`EnumField.to_pydantic_field` (uppercased keys, later values overwrite
earlier ones that collide). -/
def enumMembers (vals : List String) : List (String × String) :=
  vals.foldl (fun acc v => dictAssign acc (pyUpper v) v) []

mutual

/-- `to_pydantic_field` of each of the twelve descriptor classes, one
match arm per class (`fields/*.py`).  Returns the `(key, (type, Field))`
pair; `ValueError` becomes `Except.error`. -/
def to_pydantic_field : TypeFieldsUnion → Except String Entry
  | .strF b d c =>
      let kw : FieldKwargs :=
        { min_length := match c with | some cc => cc.min_length | none => none,
          max_length := match c with | some cc => cc.max_length | none => none }
      (_build_field b (.given (d.map PyVal.vStr)) none kw).map
        (fun fi => (b.label, .str, fi))
  | .intF b d c =>
      let kw : FieldKwargs :=
        { ge := match c with | some cc => cc.ge_int.map (fun n => (n : Rat)) | none => none,
          le := match c with | some cc => cc.le_int.map (fun n => (n : Rat)) | none => none }
      (_build_field b (.given (d.map PyVal.vInt)) none kw).map
        (fun fi => (b.label, .int, fi))
  | .floatF b d c =>
      let kw : FieldKwargs :=
        { ge := match c with | some cc => cc.ge_float | none => none,
          le := match c with | some cc => cc.le_float | none => none }
      (_build_field b (.given (d.map PyVal.vFloat)) none kw).map
        (fun fi => (b.label, .float, fi))
  | .enumF b vals dflt =>
      match vals with
      | none => .error "EnumField requires 'allowed_values' to be defined"
      | some vs =>
        if vs.isEmpty then
          .error "EnumField requires 'allowed_values' to be defined"
        else
          let enumName := pyCapitalize b.label ++ "Enum"
          let members := enumMembers vs
          match dflt with
          | some d =>
            match members.find? (fun p => p.2 = d) with
            | none =>
                .error ("default_str=" ++ d ++ " is not in allowed_values")
            | some p =>
                (_build_field b (.given (some (.vEnum enumName p.1 d))) none
                    {}).map
                  (fun fi => (b.label, .enumT enumName members, fi))
          | none =>
              (_build_field b (.given none) none {}).map
                (fun fi => (b.label, .enumT enumName members, fi))
  | .boolF b d =>
      .ok (pyLower b.label, .bool,
        { spec := .value (d.map PyVal.vBool),
          description := descrIfTruthy b.description })
  | .uuidF b d =>
      .ok (pyLower b.label, .uuid,
        { spec := .value (d.map PyVal.vUuid),
          description := descrIfTruthy b.description })
  | .dateF b d =>
      .ok (pyLower b.label, .date, { spec := .value (d.map PyVal.vDate) })
  | .datetimeF b d =>
      .ok (pyLower b.label, .datetime,
        { spec := .value (d.map PyVal.vDatetime),
          description := descrIfTruthy b.description })
  | .emailF b d =>
      .ok (pyLower b.label, .email,
        { spec := .value (d.map PyVal.vStr),
          description := descrIfTruthy b.description })
  | .jsonF b d =>
      match d with
      | some dd =>
          (_build_field b .missing (some (.vDict dd)) {}).map
            (fun fi => (b.label, .json, fi))
      | none =>
          (_build_field b (.given none) none {}).map
            (fun fi => (b.label, .json, fi))
  | .listF b d =>
      match d with
      | some dl =>
          (_build_field b .missing (some (.vList dl)) {}).map
            (fun fi => (b.label, .list, fi))
      | none =>
          (_build_field b (.given none) none {}).map
            (fun fi => (b.label, .list, fi))
  | .objectF b fs =>
      (buildDefsLoop fs []).map (fun defs =>
        (pyLower b.label, .model (pyTitle b.label ++ "SubModel") defs,
          { spec := .unset, description := descrIfTruthy b.description }))

/-- `hasattr(field, "to_pydantic_field")` dispatch of
`build_dynamic_model`: a bare `DataTypeFieldBase` has no such method. -/
def to_pydantic_field_opt : DynField → Option (Except String Entry)
  | .typed f => some (to_pydantic_field f)
  | .plainBase _ => none

/-- The loop of `build_dynamic_model` (`fields/base_field.py`):
`field_defs[key] = (typ, field_def)` for every descriptor that has a
`to_pydantic_field` method; exceptions propagate. -/
def buildDefsLoop : List DynField → List Entry → Except String (List Entry)
  | [], acc => .ok acc
  | f :: fs, acc =>
      match to_pydantic_field_opt f with
      | none => buildDefsLoop fs acc
      | some (.error e) => .error e
      | some (.ok (k, t, fi)) => buildDefsLoop fs (dictAssign acc k (t, fi))

end

/-- A `create_model` result: the model name and its field dict. -/
structure DynModel where
  name : String
  fieldDefs : List Entry
deriving Repr

/-- `build_dynamic_model` (`fields/base_field.py`). -/
def build_dynamic_model (name : String) (fields : List DynField) :
    Except String DynModel :=
  (buildDefsLoop fields []).map (fun defs => ⟨name, defs⟩)

/-- Shallow e-mail well-formedness: the string contains an `@`. -/
def containsAt (s : String) : Bool := containsSub "@".data s.data

mutual

/-- Shallow model of pydantic validation of one value against a declared
type.  Coercions kept: `int` is accepted for `float`; an enum accepts its
member values (by string) or a matching member; a nested model accepts a
dict and validates it recursively; `EmailStr` is abstracted to "contains
an `@`".  Everything else must match the declared type exactly. -/
def validateValue : PType → PyVal → Except String PyVal
  | .str, .vStr s => .ok (.vStr s)
  | .int, .vInt n => .ok (.vInt n)
  | .float, .vFloat q => .ok (.vFloat q)
  | .float, .vInt n => .ok (.vFloat n)
  | .bool, .vBool b => .ok (.vBool b)
  | .date, .vDate o => .ok (.vDate o)
  | .datetime, .vDatetime o => .ok (.vDatetime o)
  | .email, .vStr s => if containsAt s then .ok (.vStr s) else .error "value is not a valid email address"
  | .uuid, .vUuid u => .ok (.vUuid u)
  | .json, .vDict d => .ok (.vDict d)
  | .list, .vList xs => .ok (.vList xs)
  | .enumT n members, .vStr s =>
      match members.find? (fun p => p.2 = s) with
      | some p => .ok (.vEnum n p.1 s)
      | none => .error ("value is not a valid member of " ++ n)
  | .enumT n members, .vEnum n' mem val =>
      if n' = n && members.any (fun p => p.1 = mem && p.2 = val) then
        .ok (.vEnum n' mem val)
      else .error ("value is not a valid member of " ++ n)
  | .model _ defs, .vDict d => (validateFields defs d).map PyVal.vDict
  | _, _ => .error "input type mismatch"

/-- Shallow model of validating a dict against a model's field dict:
present keys are validated against the declared type, absent keys take the
field's default (or factory value), and an absent mandatory field is an
error.  Extra keys are ignored (pydantic's default). -/
def validateFields : List Entry → Jdict → Except String Jdict
  | [], _ => .ok []
  | (k, t, fi) :: rest, d =>
      match d.lookup k with
      | some v =>
          match validateValue t v with
          | .error e => .error e
          | .ok v' =>
              match validateFields rest d with
              | .error e => .error e
              | .ok r => .ok ((k, v') :: r)
      | none =>
          match fi.spec with
          | .value v =>
              (validateFields rest d).map
                (fun r => (k, (match v with | some w => w | none => .vNone)) :: r)
          | .factory v => (validateFields rest d).map (fun r => (k, v) :: r)
          | _ => .error ("Field required: " ++ k)

end

/-- `model_cls(**record)`: construct (validate) a record of the model. -/
def DynModel.validate (m : DynModel) (d : Jdict) : Except String Jdict :=
  validateFields m.fieldDefs d

/-- `RecordSchemaDefinition` (`record_schema.py`).  `id` is a UUID modelled
as `Nat` (`uuid_7()` not modelled; defaulted to `0`). -/
structure RecordSchemaDefinition where
  id : Nat := 0
  ref : Option String := none
  name : String := "record name"
  description : Option String := none
  field_definitions : Option (List TypeFieldsUnion) := none

/-- `RecordSchemaDefinition.build_record_model`: `ValueError` when
`field_definitions` is falsy (`None` or empty), else
`build_dynamic_model(self.name, self.field_definitions)`. -/
def RecordSchemaDefinition.build_record_model (s : RecordSchemaDefinition) :
    Except String DynModel :=
  match s.field_definitions with
  | none => .error "No field definitions defined"
  | some l =>
      if l.isEmpty then .error "No field definitions defined"
      else build_dynamic_model s.name (l.map DynField.typed)

/-- `RecordSchemaRegistry` (`record_schema.py`): schemas keyed by id. -/
structure RecordSchemaRegistry where
  schemas : List (Nat × RecordSchemaDefinition)

/-- `RecordSchemaRegistry.register`. -/
def RecordSchemaRegistry.register (r : RecordSchemaRegistry)
    (s : RecordSchemaDefinition) : RecordSchemaRegistry :=
  ⟨dictAssign r.schemas s.id s⟩

/-- `RecordSchemaRegistry.get`: `KeyError` when the id is unknown. -/
def RecordSchemaRegistry.get (r : RecordSchemaRegistry) (schema_id : Nat) :
    Except String RecordSchemaDefinition :=
  match r.schemas.lookup schema_id with
  | some s => .ok s
  | none => .error "KeyError"

/-- `RecordSchemaRegistry.build_model`. -/
def RecordSchemaRegistry.build_model (r : RecordSchemaRegistry)
    (schema_id : Nat) : Except String DynModel :=
  match r.get schema_id with
  | .error e => .error e
  | .ok s => s.build_record_model

/-- The second loop of `mutate_records`: validate each surplus update on
its own, first exception propagating. -/
def validateList (validate : Jdict → Except String Jdict) :
    List Jdict → Except String (List Jdict)
  | [] => .ok []
  | d :: ds =>
      match validate d with
      | .error e => .error e
      | .ok t => (validateList validate ds).map (fun ts => t :: ts)

/-- The two loops of `RecordSchemaRegistry.mutate_records`, fused into one
recursion: each stored record is overlaid (`|=`) with the update at the
same index when one exists, and each surplus update is validated on its
own.  The first validation error propagates, as the Python exception
does. -/
def mutateLoop (validate : Jdict → Except String Jdict) :
    List Jdict → List Jdict → Except String (List Jdict)
  | [], updates => validateList validate updates
  | r :: rs, [] =>
      match validate r with
      | .error e => .error e
      | .ok t => (mutateLoop validate rs []).map (fun ts => t :: ts)
  | r :: rs, u :: us =>
      match validate (dictOr r u) with
      | .error e => .error e
      | .ok t => (mutateLoop validate rs us).map (fun ts => t :: ts)

/-- `RecordSchemaRegistry.mutate_records` (`record_schema.py`). -/
def RecordSchemaRegistry.mutate_records (r : RecordSchemaRegistry)
    (schema_id : Nat) (stored_records updates : List Jdict) :
    Except String (List Jdict) :=
  match r.build_model schema_id with
  | .error e => .error e
  | .ok m => mutateLoop m.validate stored_records updates

/-- A Python type annotation, as `_choose_field_for` (`from_func.py`)
inspects it.  `literal` carries string literal arguments (the shape the
repository exercises); `listT`/`dictT` are subscripted `list[...]` /
`dict[...]` (the element types are never read by the source); `objectT`
is a class carrying a dict `__annotations__`; `unionT` is
`typing.Union`/PEP-604 `X | Y`; `otherT` is any other annotation. -/
inductive Ann where
  | noneT
  | literal (vals : List String)
  | listT
  | dictT
  | uuidT
  | dateT
  | datetimeT
  | boolT
  | intT
  | floatT
  | strT
  | objectT (annots : List (String × Ann))
  | unionT (args : List Ann)
  | otherT (tag : String)
deriving Repr

/-- Whether an annotation is `NoneType`. -/
def Ann.isNone : Ann → Bool
  | .noneT => true
  | _ => false

/-- `_unwrap_optional` (`from_func.py`): a two-argument union containing
`NoneType` unwraps to its first non-`NoneType` argument.  (The fallback
for a union of two `NoneType`s cannot arise from real annotations:
`typing` collapses duplicates.) -/
def _unwrap_optional (tp : Ann) : Ann × Bool :=
  match tp with
  | .unionT args =>
      if args.any Ann.isNone ∧ args.length = 2 then
        match args.find? (fun a => !a.isNone) with
        | some inner => (inner, true)
        | none => (.noneT, true)
      else (tp, false)
  | _ => (tp, false)

/-- `default_str`-style extraction: the kwargs factories of
`_choose_field_for` pass the parameter's default straight into the
matching `default_*` keyword; pydantic then validates it against the
descriptor's field type.  These extractors model the successfully
validated shape (a mismatched default raises in pydantic and is outside
this model). -/
def asStr : Option PyVal → Option String
  | some (.vStr s) => some s
  | _ => none

/-- Extraction of an int default. -/
def asInt : Option PyVal → Option Int
  | some (.vInt n) => some n
  | _ => none

/-- Extraction of a float default (pydantic coerces an int). -/
def asFloat : Option PyVal → Option Rat
  | some (.vFloat q) => some q
  | some (.vInt n) => some (n : Rat)
  | _ => none

/-- Extraction of a bool default. -/
def asBool : Option PyVal → Option Bool
  | some (.vBool b) => some b
  | _ => none

/-- Extraction of a date default. -/
def asDate : Option PyVal → Option Int
  | some (.vDate o) => some o
  | _ => none

/-- Extraction of a datetime default. -/
def asDatetime : Option PyVal → Option Int
  | some (.vDatetime o) => some o
  | _ => none

/-- Extraction of a UUID default. -/
def asUuid : Option PyVal → Option Nat
  | some (.vUuid u) => some u
  | _ => none

/-- Extraction of a dict default. -/
def asDict : Option PyVal → Option Jdict
  | some (.vDict d) => some d
  | _ => none

/-- Extraction of a list default. -/
def asList : Option PyVal → Option (List PyVal)
  | some (.vList xs) => some xs
  | _ => none

/-- The JsonField fallback default of `_choose_field_for`:
`default if isinstance(default, dict) else {"value": default}` (only when
a default is present). -/
def jsonFallbackDefault : Option PyVal → Option Jdict
  | none => none
  | some (.vDict d) => some d
  | some v => some [("value", v)]

/-- `sizeOf` of the unwrapped annotation does not grow (used for
termination of the mutual dispatch below). -/
theorem sizeOf_unwrap_le (a : Ann) : sizeOf (_unwrap_optional a).1 ≤ sizeOf a := by
  cases a
  case unionT args =>
    simp only [_unwrap_optional]
    split
    · cases hf : args.find? (fun x => !x.isNone) with
      | none => simp [hf]
      | some inner =>
          have hm : inner ∈ args := List.mem_of_find?_eq_some hf
          have h2 := List.sizeOf_lt_of_mem hm
          simp [hf]
          omega
    · simp
  all_goals simp [_unwrap_optional]

mutual

/-- `_choose_field_for` (`from_func.py`), fused with the construction
`field_cls(label=name, **kwargs)` done by `_fields_from_annotations`
(overrides are not modelled: every claim uses the default
`overrides=None`).  First unwraps `Optional`, then dispatches on the
annotation; `default = none` models `inspect._empty`. -/
def _choose_field_for (name : String) (ann : Ann) (default : Option PyVal) :
    DynField :=
  chooseUnwrapped name (_unwrap_optional ann).1 default
termination_by 2 * sizeOf ann + 1
decreasing_by
  have := sizeOf_unwrap_le ann
  omega

/-- The dispatch of `_choose_field_for` after `Optional` unwrapping, one
arm per branch of the source in source order (the branches are disjoint
on `Ann`, so the match order is immaterial). -/
def chooseUnwrapped (name : String) (ann : Ann) (default : Option PyVal) :
    DynField :=
  let base : FieldBase := { label := name }
  match ann with
  | .literal vals => .typed (.enumF base (some vals) (asStr default))
  | .listT => .typed (.listF base (asList default))
  | .dictT => .typed (.jsonF base (asDict default))
  | .uuidT => .typed (.uuidF base (asUuid default))
  | .dateT => .typed (.dateF base (asDate default))
  | .datetimeT => .typed (.datetimeF base (asDatetime default))
  | .boolT => .typed (.boolF base (asBool default))
  | .intT => .typed (.intF base (asInt default) none)
  | .floatT => .typed (.floatF base (asFloat default) none)
  | .objectT annots => .typed (.objectF base (fieldsFromAnnots annots))
  | .strT =>
      if containsEmail name then .typed (.emailF base (asStr default))
      else .typed (.strF base (asStr default) none)
  | _ => .typed (.jsonF base (jsonFallbackDefault default))
termination_by 2 * sizeOf ann
decreasing_by
  simp

/-- `_fields_from_annotations` (`from_func.py`) for the recursive
`ObjectField` case: inner annotations carry no defaults
(`defaults = {}`, so every default is `inspect._empty`). -/
def fieldsFromAnnots : List (String × Ann) → List DynField
  | [] => []
  | (n, a) :: rest => _choose_field_for n a none :: fieldsFromAnnots rest
termination_by l => 2 * sizeOf l
decreasing_by
  · simp
    omega
  · simp

end

/-- A parameter of a Python function signature: its name, annotation and
default (`none` models `inspect._empty`, `some .vNone` a literal `None`
default). -/
structure PyParam where
  name : String
  ann : Ann
  default : Option PyVal := none
deriving Repr

/-- A Python function as `inspect.signature` exposes it. -/
structure PyFunc where
  name : String
  params : List PyParam
deriving Repr

/-- `fields_from_function` (`from_func.py`): one descriptor per parameter
other than `self`, in parameter order, built by `_choose_field_for` from
the parameter's annotation and default.  (The source routes the
annotations and defaults dicts through `_fields_from_annotations`; since
parameter names are unique in a signature this equals the direct map.) -/
def fields_from_function (f : PyFunc) : List DynField :=
  (f.params.filter (fun p => p.name ≠ "self")).map
    (fun p => _choose_field_for p.name p.ann p.default)

/-- `build_model_from_function` (`from_func.py`). -/
def build_model_from_function (f : PyFunc) (name : Option String) :
    Except String DynModel :=
  let model_name :=
    match name with
    | some n => n
    | none => pyCapitalize f.name ++ "Model"
  build_dynamic_model model_name (fields_from_function f)

/-- `_get_default` (`record_schema.py`): the field's default if set, else
the factory's product, else `None`. -/
def _get_default (fi : PFieldInfo) : Option PyVal :=
  match fi.spec with
  | .value v => v
  | .factory v => some v
  | _ => none

/-- Shallow `str(value)` used by the fallback branch of
`pydantic_field_to_dyn_field` (containers abbreviated). -/
def pyStr : PyVal → String
  | .vStr s => s
  | .vInt n => toString n
  | .vBool true => "True"
  | .vBool false => "False"
  | .vNone => "None"
  | .vFloat q => toString q
  | .vDate o => toString o
  | .vDatetime o => toString o
  | .vUuid u => toString u
  | .vList _ => "<list>"
  | .vDict _ => "<dict>"
  | .vEnum _ mem _ => mem

/-- `pydantic_field_to_dyn_field` (`record_schema.py`): converts a field
of a built model back into a descriptor.  Note its dispatch is much
coarser than `_choose_field_for`: only bool, float, str and Enum are
recognized; everything else (int, UUID, date, ...) falls back to a
`StrField` over `str(default)`.  (On pydantic v2 a `FieldInfo` has no
`ge`/`le`/`min_length`/`max_length` attributes, so the
`getattr(info, ..., None)` reads always yield `None` and the produced
constraints are `None`.) -/
def pydantic_field_to_dyn_field (name : String) (t : PType)
    (fi : PFieldInfo) : TypeFieldsUnion :=
  let default := _get_default fi
  match t with
  | .bool => .boolF { label := name } (asBool default)
  | .float => .floatF { label := name } (asFloat default) none
  | .str => .strF { label := name } (asStr default) none
  | .enumT _ members =>
      .enumF { label := name } (some (members.map (fun p => p.2)))
        (match default with
         | some (.vEnum _ _ v) => some v
         | _ => none)
  | _ =>
      .strF { label := name }
        (match default with
         | none => none
         | some v => some (pyStr v)) none

/-- The module-level binding of the name `my_func` in `record_schema.py`
as an importer of the module sees it: `my_func` is defined only under the
`if __name__ == "__main__":` guard, so the global is unbound (`none`). -/
def myFuncGlobal : Option PyFunc := none

/-- `RecordSchemaDefinition.from_func` (`record_schema.py`).  Its body
reads `build_model_from_function(my_func)` — the hard-coded global
`my_func`, not the `func` parameter, which is never used.  With
`myFuncGlobal = none` (import-time semantics) every call raises
`NameError`. -/
def RecordSchemaDefinition.from_func (func : PyFunc) (name : Option String)
    (description : Option String) (exclude : List String) :
    Except String RecordSchemaDefinition :=
  match myFuncGlobal with
  | none => .error "NameError: name 'my_func' is not defined"
  | some myf =>
      match build_model_from_function myf none with
      | .error e => .error e
      | .ok model =>
          let dyn_fields :=
            (model.fieldDefs.filter (fun e => ¬ exclude.contains e.1)).map
              (fun e => pydantic_field_to_dyn_field e.1 e.2.1 e.2.2)
          .ok { name := (match name with | some n => n | none => model.name),
                description := description,
                field_definitions := some dyn_fields }

/-- `StrFieldConstraintsGql` (strawberry type, `all_fields=True`). -/
structure StrFieldConstraintsGql where
  min_length : Option Int
  max_length : Option Int
deriving Repr

/-- `IntFieldConstraintsGql` (strawberry type, `all_fields=True`). -/
structure IntFieldConstraintsGql where
  ge_int : Option Int
  le_int : Option Int
deriving Repr

/-- `FloatFieldConstraintsGql` (strawberry type, `all_fields=True`). -/
structure FloatFieldConstraintsGql where
  ge_float : Option Rat
  le_float : Option Rat
deriving Repr

/-- `StrFieldGql` (`fields/str_field.py`): the attributes it declares. -/
structure StrFieldGql where
  id : Nat
  label : String
  description : Option String
  required : Bool
  default_str : Option String
  constraints_str : Option StrFieldConstraintsGql
deriving Repr

/-- `IntFieldGql` (`fields/int_field.py`). -/
structure IntFieldGql where
  id : Nat
  label : String
  description : Option String
  required : Bool
  default_int : Option Int
  constraints_int : Option IntFieldConstraintsGql
deriving Repr

/-- `FloatFieldGql` (`fields/float_field.py`). -/
structure FloatFieldGql where
  id : Nat
  label : String
  description : Option String
  required : Bool
  default_float : Option Rat
  constraints_float : Option FloatFieldConstraintsGql
deriving Repr

/-- `EnumFieldGql` (`fields/enum_field.py`). -/
structure EnumFieldGql where
  id : Nat
  label : String
  description : Option String
  required : Bool
  default_str : Option String
  allowed_values : Option (List String)
deriving Repr

/-- `BoolFieldGql` (`fields/bool_field.py`); note it declares no
`required` attribute. -/
structure BoolFieldGql where
  id : Nat
  label : String
  description : Option String
  default_bool : Option Bool
deriving Repr

/-- `DateFieldGql` (`fields/date_field.py`). -/
structure DateFieldGql where
  id : Nat
  label : String
  description : Option String
  default_date : Option Int
deriving Repr

/-- `DateTimeFieldGql` (`fields/date_field.py`). -/
structure DateTimeFieldGql where
  id : Nat
  label : String
  description : Option String
  default_datetime : Option Int
deriving Repr

/-- `EmailFieldGql` (`fields/email_field.py`). -/
structure EmailFieldGql where
  id : Nat
  label : String
  description : Option String
  default_email : Option String
deriving Repr

/-- `JsonFieldGql` (`fields/json_field.py`); `default_dict` is exposed as
the JSON scalar. -/
structure JsonFieldGql where
  id : Nat
  label : String
  description : Option String
  required : Bool
  default_dict : Option Jdict
deriving Repr

/-- `ListFieldGql` (`fields/list_field.py`). -/
structure ListFieldGql where
  id : Nat
  label : String
  description : Option String
  required : Bool
  default_list : Option (List PyVal)
deriving Repr

/-- `UuidFieldGql` (`fields/uuid_field.py`). -/
structure UuidFieldGql where
  id : Nat
  label : String
  description : Option String
  default_uuid : Option Nat
deriving Repr

/-- `ObjectFieldGql` (`fields/object_field.py`); `fields` is exposed as
the JSON scalar, carried here as the raw descriptor list. -/
structure ObjectFieldGql where
  id : Nat
  label : String
  description : Option String
  fields : List DynField

/-- `TypeFieldsUnionGql` (`record_schema.py`): the union of the twelve
`*Gql` API types. -/
inductive TypeFieldsUnionGql where
  | boolG (g : BoolFieldGql)
  | dateG (g : DateFieldGql)
  | datetimeG (g : DateTimeFieldGql)
  | emailG (g : EmailFieldGql)
  | enumG (g : EnumFieldGql)
  | floatG (g : FloatFieldGql)
  | intG (g : IntFieldGql)
  | jsonG (g : JsonFieldGql)
  | listG (g : ListFieldGql)
  | strG (g : StrFieldGql)
  | uuidG (g : UuidFieldGql)
  | objectG (g : ObjectFieldGql)

/-- Which `FieldTypeEnum` member a Gql variant corresponds to. -/
def TypeFieldsUnionGql.kind : TypeFieldsUnionGql → FieldTypeEnum
  | .boolG _ => .BoolField
  | .dateG _ => .DateField
  | .datetimeG _ => .DateTimeField
  | .emailG _ => .EmailField
  | .enumG _ => .EnumField
  | .floatG _ => .FloatField
  | .intG _ => .IntField
  | .jsonG _ => .JsonField
  | .listG _ => .ListField
  | .strG _ => .StrField
  | .uuidG _ => .UuidField
  | .objectG _ => .ObjectField

/-- `to_gql_type` of each descriptor class: the `from_pydantic`
conversion copies the declared attributes from the descriptor into its
matching `*Gql` type. -/
def TypeFieldsUnion.to_gql_type : TypeFieldsUnion → TypeFieldsUnionGql
  | .boolF b d => .boolG ⟨b.id, b.label, b.description, d⟩
  | .dateF b d => .dateG ⟨b.id, b.label, b.description, d⟩
  | .datetimeF b d => .datetimeG ⟨b.id, b.label, b.description, d⟩
  | .emailF b d => .emailG ⟨b.id, b.label, b.description, d⟩
  | .enumF b vals d =>
      .enumG ⟨b.id, b.label, b.description, b.required, d, vals⟩
  | .floatF b d c =>
      .floatG ⟨b.id, b.label, b.description, b.required, d,
        c.map (fun cc => ⟨cc.ge_float, cc.le_float⟩)⟩
  | .intF b d c =>
      .intG ⟨b.id, b.label, b.description, b.required, d,
        c.map (fun cc => ⟨cc.ge_int, cc.le_int⟩)⟩
  | .jsonF b d => .jsonG ⟨b.id, b.label, b.description, b.required, d⟩
  | .listF b d => .listG ⟨b.id, b.label, b.description, b.required, d⟩
  | .strF b d c =>
      .strG ⟨b.id, b.label, b.description, b.required, d,
        c.map (fun cc => ⟨cc.min_length, cc.max_length⟩)⟩
  | .uuidF b d => .uuidG ⟨b.id, b.label, b.description, d⟩
  | .objectF b fs => .objectG ⟨b.id, b.label, b.description, fs⟩

/-- `RecordSchemaDefinitionGql` (`record_schema.py`). -/
structure RecordSchemaDefinitionGql where
  id : Nat
  name : String
  description : Option String
  field_definitions : Option (List TypeFieldsUnionGql)

/-- `RecordSchemaDefinition.to_gql_type` (`record_schema.py`): same id,
name and description; `field_definitions` mapped element-wise through
each descriptor's `to_gql_type` when truthy (non-`None`, non-empty),
`None` otherwise. -/
def RecordSchemaDefinition.to_gql_type (s : RecordSchemaDefinition) :
    RecordSchemaDefinitionGql :=
  { id := s.id, name := s.name, description := s.description,
    field_definitions :=
      match s.field_definitions with
      | some l =>
          if l.isEmpty then none
          else some (l.map TypeFieldsUnion.to_gql_type)
      | none => none }

/-! ### Spec-side definitions

The definitions below restate, in the words of the specification claims,
what the embedded source functions are claimed to compute; the theorems
compare them with the source embedding above. -/

/-- Projection: the descriptor kind of a `DynField` (none for a bare
base instance). -/
def DynField.kindOf : DynField → Option FieldTypeEnum
  | .typed f => some f.kind
  | .plainBase _ => none

/-- Projection: a descriptor's label. -/
def DynField.labelOf : DynField → String
  | .typed f => f.base.label
  | .plainBase b => b.label

/-- Projection: an enum descriptor's `allowed_values`. -/
def DynField.allowedOf : DynField → Option (List String)
  | .typed (.enumF _ vs _) => vs
  | _ => none

/-- Projection: an object descriptor's inner fields. -/
def DynField.innerOf : DynField → Option (List DynField)
  | .typed (.objectF _ fs) => some fs
  | _ => none

/-- Claim C3's dispatch table, written from the claim's words: the kind
chosen for a parameter name and (already unwrapped) annotation. -/
def claimKindC3 (name : String) : Ann → FieldTypeEnum
  | .literal _ => .EnumField
  | .listT => .ListField
  | .dictT => .JsonField
  | .uuidT => .UuidField
  | .dateT => .DateField
  | .datetimeT => .DateTimeField
  | .boolT => .BoolField
  | .intT => .IntField
  | .floatT => .FloatField
  | .objectT _ => .ObjectField
  | .strT => if containsEmail name then .EmailField else .StrField
  | .noneT => .JsonField
  | .unionT _ => .JsonField
  | .otherT _ => .JsonField

/-- Claim C9's table, written from the claim's words: the model field
name contributed by each descriptor kind — the label unchanged for
`StrField`, `IntField`, `FloatField`, `EnumField`, `JsonField` and
`ListField`, the lowercased label for the other six kinds. -/
def claimFieldKey : TypeFieldsUnion → String
  | .strF b _ _ => b.label
  | .intF b _ _ => b.label
  | .floatF b _ _ => b.label
  | .enumF b _ _ => b.label
  | .jsonF b _ => b.label
  | .listF b _ => b.label
  | .boolF b _ => pyLower b.label
  | .dateF b _ => pyLower b.label
  | .datetimeF b _ => pyLower b.label
  | .emailF b _ => pyLower b.label
  | .uuidF b _ => pyLower b.label
  | .objectF b _ => pyLower b.label

/-- The entries successfully produced by the descriptors of a list, in
order, skipping descriptors without `to_pydantic_field`; the first
exception propagates (spec-side restatement for claim C2). -/
def defsOf : List DynField → Except String (List Entry)
  | [] => .ok []
  | f :: fs =>
      match to_pydantic_field_opt f with
      | none => defsOf fs
      | some (.error e) => .error e
      | some (.ok x) =>
          match defsOf fs with
          | .error e => .error e
          | .ok l => .ok (x :: l)

/-- Claim C2's "declared value type" of a descriptor: the `typ` its kind
declares (for enum and object kinds, a dynamically created type named
after the label). -/
def declaredTypeOk : DynField → PType → Prop
  | .typed (.strF _ _ _), t => t = .str
  | .typed (.intF _ _ _), t => t = .int
  | .typed (.floatF _ _ _), t => t = .float
  | .typed (.boolF _ _), t => t = .bool
  | .typed (.dateF _ _), t => t = .date
  | .typed (.datetimeF _ _), t => t = .datetime
  | .typed (.emailF _ _), t => t = .email
  | .typed (.uuidF _ _), t => t = .uuid
  | .typed (.jsonF _ _), t => t = .json
  | .typed (.listF _ _), t => t = .list
  | .typed (.enumF b _ _), t =>
      ∃ members, t = .enumT (pyCapitalize b.label ++ "Enum") members
  | .typed (.objectF b _), t =>
      ∃ defs, t = .model (pyTitle b.label ++ "SubModel") defs
  | .plainBase _, _ => False

/-- Claim C8's expected mapping, written from the claim's words (the
values for `EnumField` and `ObjectField` are irrelevant: the amended
claim never reads them). -/
def expectedPyType : FieldTypeEnum → PType
  | .UuidField => .uuid
  | .StrField => .str
  | .EmailField => .email
  | .IntField => .int
  | .FloatField => .float
  | .BoolField => .bool
  | .DateField => .date
  | .DateTimeField => .datetime
  | .JsonField => .json
  | .ListField => .list
  | .EnumField => .json
  | .ObjectField => .json

/-- The descriptor kinds whose `to_pydantic_field` routes through
`_build_field` (and so honor `required`). -/
def usesBuildField : TypeFieldsUnion → Bool
  | .strF _ _ _ => true
  | .intF _ _ _ => true
  | .floatF _ _ _ => true
  | .enumF _ _ _ => true
  | .jsonF _ _ => true
  | .listF _ _ => true
  | _ => false

/-- The descriptor kinds whose `to_pydantic_field` calls
`pydantic.Field` directly and therefore ignores `required`. -/
def ignoresRequired : TypeFieldsUnion → Bool
  | .boolF _ _ => true
  | .uuidF _ _ => true
  | .dateF _ _ => true
  | .datetimeF _ _ => true
  | .emailF _ _ => true
  | _ => false

/-- Whether a `_build_field`-routed descriptor carries a non-None default
value or (for json/list) a default factory. -/
def hasNonNoneDefault : TypeFieldsUnion → Bool
  | .strF _ d _ => d.isSome
  | .intF _ d _ => d.isSome
  | .floatF _ d _ => d.isSome
  | .enumF _ _ d => d.isSome
  | .jsonF _ d => d.isSome
  | .listF _ d => d.isSome
  | _ => false

/-! ### General lemmas -/

/-- Inversion for `Except.map` returning `ok`. -/
theorem except_map_ok {α β : Type} (f : α → β) (e : Except String α)
    (y : β) (h : e.map f = .ok y) : ∃ x, e = .ok x ∧ y = f x := by
  cases e with
  | error err => simp [Except.map] at h
  | ok x =>
      refine ⟨x, rfl, ?_⟩
      simp [Except.map] at h
      exact h.symm

/-- Evaluating `Char.ofNat` below the surrogate range. -/
theorem char_toNat_ofNat (n : Nat) (h : n < 55296) :
    (Char.ofNat n).toNat = n := by
  simp [Char.ofNat, Char.toNat]
  split
  · rfl
  · next hn =>
      exfalso
      apply hn
      exact Or.inl (by exact_mod_cast h)

/-- `pyCharLower` fixes exactly the non-uppercase characters. -/
theorem pyCharLower_eq_self_iff (c : Char) :
    pyCharLower c = c ↔ c.isUpper = false := by
  unfold pyCharLower
  by_cases h : c.isUpper
  · simp only [h, if_true]
    constructor
    · intro heq
      exfalso
      have hb : 65 ≤ c.toNat ∧ c.toNat ≤ 90 := by
        simp [Char.isUpper] at h
        exact ⟨h.1, h.2⟩
      have h32 : (Char.ofNat (c.toNat + 32)).toNat = c.toNat + 32 :=
        char_toNat_ofNat _ (by omega)
      have hc := congrArg Char.toNat heq
      rw [h32] at hc
      omega
    · intro hf
      simp at hf
  · simp [h]

/-- A map fixes a list exactly when it fixes each element. -/
theorem list_map_eq_self {α : Type} (f : α → α) (l : List α) :
    l.map f = l ↔ ∀ x ∈ l, f x = x := by
  induction l with
  | nil => simp
  | cons a l ih =>
      simp only [List.map_cons, List.cons.injEq, List.mem_cons]
      constructor
      · rintro ⟨h1, h2⟩ x hx
        cases hx with
        | inl he => rw [he]; exact h1
        | inr hm => exact (ih.mp h2) x hm
      · intro h
        exact ⟨h a (Or.inl rfl), ih.mpr (fun x hx => h x (Or.inr hx))⟩

/-- `pyLower` fixes exactly the strings without ASCII uppercase
characters. -/
theorem pyLower_eq_self_iff (s : String) :
    pyLower s = s ↔ ∀ c ∈ s.data, c.isUpper = false := by
  cases s with
  | mk data =>
      simp only [pyLower, String.ext_iff]
      constructor
      · intro h c hc
        exact (pyCharLower_eq_self_iff c).mp
          ((list_map_eq_self pyCharLower data).mp h c hc)
      · intro h
        exact (list_map_eq_self pyCharLower data).mpr
          (fun c hc => (pyCharLower_eq_self_iff c).mpr (h c hc))

/-- Lookup distributes over append, first list first. -/
theorem lookup_append {κ α : Type} [BEq κ] (l1 l2 : List (κ × α)) (k : κ) :
    (l1 ++ l2).lookup k =
      match l1.lookup k with
      | some v => some v
      | none => l2.lookup k := by
  induction l1 with
  | nil => simp [List.lookup]
  | cons p l ih =>
      cases p with
      | mk a b =>
          simp only [List.cons_append, List.lookup]
          cases hb : k == a <;> simp [hb, ih]

/-- A list none of whose keys is `k` has no entry for `k`. -/
theorem lookup_of_any_false {κ α : Type} [DecidableEq κ]
    (m : List (κ × α)) (k : κ)
    (h : m.any (fun p => p.1 = k) = false) : m.lookup k = none := by
  induction m with
  | nil => simp [List.lookup]
  | cons p m ih =>
      cases p with
      | mk a b =>
          simp only [List.any_cons, Bool.or_eq_false_iff] at h
          have ha : ¬ a = k := by
            intro he
            simp [he] at h
          simp only [List.lookup]
          have hk : (k == a) = false := by
            simp
            intro he
            exact ha he.symm
          simp [hk, ih h.2]

/-- In-place replacement leaves lookups of other keys unchanged. -/
theorem lookup_map_assign_ne {κ α : Type} [DecidableEq κ]
    (m : List (κ × α)) (k k' : κ) (v : α) (h : ¬ k' = k) :
    (m.map (fun p => if p.1 = k then (k, v) else p)).lookup k' =
      m.lookup k' := by
  induction m with
  | nil => simp
  | cons p m ih =>
      cases p with
      | mk a b =>
          by_cases ha : a = k
          · subst ha
            have hhead :
                (if (a, b).1 = a then (a, v) else (a, b)) = (a, v) := by simp
            rw [List.map_cons, hhead]
            have h1 : (k' == a) = false := by simp [h]
            simp [List.lookup, h1, ih]
          · have hhead :
                (if (a, b).1 = k then (k, v) else (a, b)) = (a, b) := by
              simp [ha]
            rw [List.map_cons, hhead]
            simp only [List.lookup]
            cases hb : k' == a <;> simp [hb, ih]

/-- In-place replacement makes the lookup of `k` yield the new value,
provided `k` occurs. -/
theorem lookup_map_assign_self {κ α : Type} [DecidableEq κ]
    (m : List (κ × α)) (k : κ) (v : α)
    (h : m.any (fun p => p.1 = k) = true) :
    (m.map (fun p => if p.1 = k then (k, v) else p)).lookup k = some v := by
  induction m with
  | nil => simp at h
  | cons p m ih =>
      cases p with
      | mk a b =>
          by_cases ha : a = k
          · subst ha
            have hhead :
                (if (a, b).1 = a then (a, v) else (a, b)) = (a, v) := by simp
            rw [List.map_cons, hhead]
            simp [List.lookup]
          · simp only [List.any_cons] at h
            have h2 : m.any (fun p => p.1 = k) = true := by
              cases hx : m.any (fun p => p.1 = k)
              · simp [hx, ha] at h
              · rfl
            have hhead :
                (if (a, b).1 = k then (k, v) else (a, b)) = (a, b) := by
              simp [ha]
            rw [List.map_cons, hhead]
            have hk : (k == a) = false := by
              simp
              intro he
              exact ha he.symm
            simp [List.lookup, hk, ih h2]

/-- The dict-assignment/lookup law: Python `m[k] = v` makes `m[k']`
yield `v` at `k` and is invisible elsewhere. -/
theorem lookup_dictAssign {κ α : Type} [DecidableEq κ]
    (m : List (κ × α)) (k k' : κ) (v : α) :
    (dictAssign m k v).lookup k' =
      if k' = k then some v else m.lookup k' := by
  unfold dictAssign
  cases ha : m.any (fun p => p.1 = k) with
  | false =>
      rw [if_neg (by simp [ha])]
      rw [lookup_append]
      by_cases h : k' = k
      · subst h
        rw [lookup_of_any_false m k' ha]
        simp [List.lookup]
      · have hk : (k' == k) = false := by simp [h]
        cases hm : m.lookup k' with
        | some w => simp [hm, h]
        | none => simp [hm, List.lookup, hk, h]
  | true =>
      rw [if_pos (by simp [ha])]
      by_cases h : k' = k
      · subst h
        rw [lookup_map_assign_self m k' v ha]
        simp
      · rw [lookup_map_assign_ne m k k' v h]
        simp [h]

/-- The `typename__` literal associated with each descriptor kind. -/
def kindTag : FieldTypeEnum → String
  | .StrField => "StrField"
  | .IntField => "IntField"
  | .FloatField => "FloatField"
  | .EnumField => "EnumField"
  | .BoolField => "BoolFieldGql"
  | .DateField => "DateFieldGql"
  | .DateTimeField => "DateTimeFieldGql"
  | .EmailField => "EmailFieldGql"
  | .JsonField => "JsonFieldGql"
  | .ListField => "ListFieldGql"
  | .UuidField => "UuidFieldGql"
  | .ObjectField => "ObjectField"

/-- Every descriptor's discriminator value is determined by its kind. -/
theorem typename_factors (f : TypeFieldsUnion) :
    f.typename = kindTag f.kind := by
  cases f <;> rfl

/-- The twelve discriminator values are pairwise distinct. -/
theorem kindTag_inj (e1 e2 : FieldTypeEnum) (h : kindTag e1 = kindTag e2) :
    e1 = e2 := by
  cases e1 <;> cases e2 <;> first | rfl | exact absurd h (by decide)

/-! ### Claim theorems -/

/-- C1: the claim is right and the code has a slip: the body of
`RecordSchemaDefinition.from_func` calls
`build_model_from_function(my_func)` on the hard-coded global `my_func`
(unbound outside the module's `__main__` guard) instead of the `func`
parameter, which the function never uses — so for every function, name,
description and exclude list the call raises `NameError` instead of
returning a definition derived from `func`'s signature. -/
theorem from_func_raises_name_error (func : PyFunc)
    (name description : Option String) (exclude : List String) :
    RecordSchemaDefinition.from_func func name description exclude =
      .error "NameError: name 'my_func' is not defined" := rfl

/-- C8 counterexample: `FieldTypeEnum.to_py_type` is not total — at the
member `EnumField` the `type_mapping` dict has no key and the subscript
raises `KeyError` (modelled as `none`). -/
theorem to_py_type_enum_keyerror :
    FieldTypeEnum.EnumField.to_py_type = none := rfl

/-- C8 (amended): `to_py_type` returns the corresponding Python value
type for the ten members other than `EnumField` and `ObjectField`; on
those two it raises `KeyError`. -/
theorem to_py_type_partial :
    (∀ e : FieldTypeEnum, e ≠ .EnumField → e ≠ .ObjectField →
      e.to_py_type = some (expectedPyType e)) ∧
    FieldTypeEnum.EnumField.to_py_type = none ∧
    FieldTypeEnum.ObjectField.to_py_type = none := by
  refine ⟨?_, rfl, rfl⟩
  intro e h1 h2
  cases e <;> first | rfl | exact absurd rfl h1 | exact absurd rfl h2

/-- C8 witness: the amended theorem applied at `StrField`. -/
theorem to_py_type_partial_witness :
    FieldTypeEnum.StrField.to_py_type = some (expectedPyType .StrField) :=
  to_py_type_partial.1 .StrField (by decide) (by decide)

/-- C5: there are exactly twelve field kinds: `FieldTypeEnum` has twelve
members (no duplicates, none missing); the descriptor union's
`typename__` discriminator determines the descriptor kind; and both
`TypeFieldsUnion` and `TypeFieldsUnionGql` realize all twelve kinds. -/
theorem twelve_field_kinds :
    FieldTypeEnum.members.length = 12 ∧
    FieldTypeEnum.members.Nodup ∧
    (∀ e : FieldTypeEnum, e ∈ FieldTypeEnum.members) ∧
    (∀ f g : TypeFieldsUnion, f.typename = g.typename → f.kind = g.kind) ∧
    (∀ e : FieldTypeEnum, ∃ f : TypeFieldsUnion, f.kind = e) ∧
    (∀ e : FieldTypeEnum, ∃ g : TypeFieldsUnionGql, g.kind = e) := by
  refine ⟨rfl, by decide, ?_, ?_, ?_, ?_⟩
  · intro e
    cases e <;> decide
  · intro f g h
    rw [typename_factors f, typename_factors g] at h
    exact kindTag_inj _ _ h
  · intro e
    cases e
    case UuidField => exact ⟨.uuidF { label := "" } none, rfl⟩
    case StrField => exact ⟨.strF { label := "" } none none, rfl⟩
    case EmailField => exact ⟨.emailF { label := "" } none, rfl⟩
    case IntField => exact ⟨.intF { label := "" } none none, rfl⟩
    case FloatField => exact ⟨.floatF { label := "" } none none, rfl⟩
    case BoolField => exact ⟨.boolF { label := "" } none, rfl⟩
    case DateField => exact ⟨.dateF { label := "" } none, rfl⟩
    case DateTimeField => exact ⟨.datetimeF { label := "" } none, rfl⟩
    case JsonField => exact ⟨.jsonF { label := "" } none, rfl⟩
    case ListField => exact ⟨.listF { label := "" } none, rfl⟩
    case EnumField => exact ⟨.enumF { label := "" } none none, rfl⟩
    case ObjectField => exact ⟨.objectF { label := "" } [], rfl⟩
  · intro e
    cases e
    case UuidField => exact ⟨.uuidG ⟨0, "", none, none⟩, rfl⟩
    case StrField => exact ⟨.strG ⟨0, "", none, false, none, none⟩, rfl⟩
    case EmailField => exact ⟨.emailG ⟨0, "", none, none⟩, rfl⟩
    case IntField => exact ⟨.intG ⟨0, "", none, false, none, none⟩, rfl⟩
    case FloatField => exact ⟨.floatG ⟨0, "", none, false, none, none⟩, rfl⟩
    case BoolField => exact ⟨.boolG ⟨0, "", none, none⟩, rfl⟩
    case DateField => exact ⟨.dateG ⟨0, "", none, none⟩, rfl⟩
    case DateTimeField => exact ⟨.datetimeG ⟨0, "", none, none⟩, rfl⟩
    case JsonField => exact ⟨.jsonG ⟨0, "", none, false, none⟩, rfl⟩
    case ListField => exact ⟨.listG ⟨0, "", none, false, none⟩, rfl⟩
    case EnumField => exact ⟨.enumG ⟨0, "", none, false, none, none⟩, rfl⟩
    case ObjectField => exact ⟨.objectG ⟨0, "", none, []⟩, rfl⟩

/-- C5 witness: the discriminator implication applied at two concrete
descriptors with equal `typename__`. -/
theorem twelve_field_kinds_witness :
    (TypeFieldsUnion.strF { label := "a" } none none).kind =
      (TypeFieldsUnion.strF { label := "b" } none none).kind :=
  twelve_field_kinds.2.2.2.1 _ _ rfl


/-- C9: the model field name each descriptor contributes is its label
unchanged for `StrField`, `IntField`, `FloatField`, `EnumField`,
`JsonField` and `ListField`, and the lowercased label for `BoolField`,
`DateField`, `DateTimeField`, `EmailField`, `UuidField` and
`ObjectField`; and a lowercased label equals the label exactly when the
label contains no (ASCII) uppercase characters. -/
theorem field_key_casing :
    (∀ (f : TypeFieldsUnion) (k : String) (t : PType) (fi : PFieldInfo),
        to_pydantic_field f = .ok (k, t, fi) → k = claimFieldKey f) ∧
    (∀ s : String, pyLower s = s ↔ ∀ c ∈ s.data, c.isUpper = false) := by
  refine ⟨?_, pyLower_eq_self_iff⟩
  intro f k t fi h
  cases f <;> simp only [to_pydantic_field] at h <;> repeat' split at h
  all_goals
    first
      | (simp only [Except.ok.injEq, Prod.mk.injEq] at h
         simp [claimFieldKey, h.1])
      | (obtain ⟨x, hx, hy⟩ := except_map_ok _ _ _ h
         simp only [Prod.mk.injEq] at hy
         simp [claimFieldKey, hy.1])
      | simp at h

/-- C9 witness: a `BoolField` labelled `"Active"` contributes the model
field `"active"`. -/
theorem field_key_casing_witness :
    ("active" : String) =
      claimFieldKey (TypeFieldsUnion.boolF { label := "Active" } none) :=
  field_key_casing.1 (.boolF { label := "Active" } none) "active" .bool
    { spec := .value none } rfl


/-- `_fields_from_annotations` is the element-wise map of
`_choose_field_for` with empty defaults. -/
theorem fieldsFromAnnots_eq_map (annots : List (String × Ann)) :
    fieldsFromAnnots annots =
      annots.map (fun p => _choose_field_for p.1 p.2 none) := by
  induction annots with
  | nil => simp [fieldsFromAnnots]
  | cons p rest ih =>
      cases p with
      | mk n a => simp [fieldsFromAnnots, ih]

/-- C3: `_choose_field_for` selects the descriptor kind by the claimed
dispatch table after unwrapping `Optional`, labels the descriptor with
the parameter name, gives a `Literal` annotation's arguments to the enum
descriptor as its `allowed_values`, and derives an object-like
annotation's inner fields recursively from its `__annotations__`. -/
theorem choose_field_for_dispatch (name : String) (ann : Ann)
    (default : Option PyVal) :
    DynField.kindOf (_choose_field_for name ann default) =
      some (claimKindC3 name (_unwrap_optional ann).1) ∧
    DynField.labelOf (_choose_field_for name ann default) = name ∧
    (∀ vals, (_unwrap_optional ann).1 = .literal vals →
      DynField.allowedOf (_choose_field_for name ann default) = some vals) ∧
    (∀ annots, (_unwrap_optional ann).1 = .objectT annots →
      DynField.innerOf (_choose_field_for name ann default) =
        some (annots.map (fun p => _choose_field_for p.1 p.2 none))) := by
  have heq : _choose_field_for name ann default =
      chooseUnwrapped name (_unwrap_optional ann).1 default := by
    simp only [_choose_field_for]
  rw [heq]
  generalize (_unwrap_optional ann).1 = a
  cases a <;>
    simp [chooseUnwrapped, claimKindC3, DynField.kindOf, DynField.labelOf,
      DynField.allowedOf, DynField.innerOf, TypeFieldsUnion.kind,
      TypeFieldsUnion.base, fieldsFromAnnots_eq_map]
  by_cases hc : containsEmail name <;>
    simp [hc, DynField.kindOf, DynField.labelOf, TypeFieldsUnion.kind,
      TypeFieldsUnion.base]

/-- C3 witness: the dispatch applied to `Optional[Literal["a", "b"]]`. -/
theorem choose_field_for_dispatch_witness :
    DynField.allowedOf
        (_choose_field_for "status" (.unionT [.literal ["a", "b"], .noneT])
          none) = some ["a", "b"] :=
  (choose_field_for_dispatch "status" (.unionT [.literal ["a", "b"], .noneT])
    none).2.2.1 ["a", "b"] rfl


/-- C4: `RecordSchemaDefinition.to_gql_type` carries the same id, name
and description; its `field_definitions` is `None` when the source's is
`None` or empty, and otherwise the element-wise, order-preserving image
under each descriptor's `to_gql_type`; and every descriptor's
`to_gql_type` yields the Gql variant of the same kind. -/
theorem record_schema_to_gql_spec (s : RecordSchemaDefinition) :
    (s.to_gql_type).id = s.id ∧
    (s.to_gql_type).name = s.name ∧
    (s.to_gql_type).description = s.description ∧
    (s.field_definitions = none → (s.to_gql_type).field_definitions = none) ∧
    (∀ l, s.field_definitions = some l → l = [] →
      (s.to_gql_type).field_definitions = none) ∧
    (∀ l, s.field_definitions = some l → l ≠ [] →
      ∃ gl, (s.to_gql_type).field_definitions = some gl ∧
        gl.length = l.length ∧
        ∀ (i : Nat) (hi : i < l.length) (hg : i < gl.length),
          gl.get ⟨i, hg⟩ = (l.get ⟨i, hi⟩).to_gql_type) ∧
    (∀ f : TypeFieldsUnion, (TypeFieldsUnion.to_gql_type f).kind = f.kind) := by
  refine ⟨rfl, rfl, rfl, ?_, ?_, ?_, ?_⟩
  · intro h
    simp [RecordSchemaDefinition.to_gql_type, h]
  · intro l hl he
    subst he
    simp [RecordSchemaDefinition.to_gql_type, hl]
  · intro l hl hne
    refine ⟨l.map TypeFieldsUnion.to_gql_type, ?_, by simp, ?_⟩
    · have hie : l.isEmpty = false := by
        cases l with
        | nil => exact absurd rfl hne
        | cons a t => rfl
      simp [RecordSchemaDefinition.to_gql_type, hl, hie]
    · intro i hi hg
      simp
  · intro f
    cases f <;> rfl

/-- C4 witness: the mapping clause applied to a one-descriptor schema. -/
theorem record_schema_to_gql_spec_witness :
    ∃ gl,
      (({ id := 7, name := "n",
          field_definitions := some [TypeFieldsUnion.boolF { label := "B" } none] } :
            RecordSchemaDefinition).to_gql_type).field_definitions = some gl ∧
      gl.length = [TypeFieldsUnion.boolF { label := "B" } none].length ∧
      ∀ (i : Nat)
        (hi : i < [TypeFieldsUnion.boolF { label := "B" } none].length)
        (hg : i < gl.length),
        gl.get ⟨i, hg⟩ =
          ([TypeFieldsUnion.boolF { label := "B" } none].get ⟨i, hi⟩).to_gql_type :=
  (record_schema_to_gql_spec _).2.2.2.2.2.1 _ rfl (by simp)


/-- `_build_field` on an explicit non-None default. -/
theorem build_field_given_some (b : FieldBase) (v : PyVal) (kw : FieldKwargs) :
    _build_field b (.given (some v)) none kw =
      if b.required then
        .error ("Required field '" ++ b.label ++
          "' cannot specify a default value.")
      else
        .ok { spec := .value (some v), description := descrIfTruthy b.description,
              min_length := kw.min_length, max_length := kw.max_length,
              ge := kw.ge, le := kw.le } := by
  cases hr : b.required <;> simp [_build_field, hr]

/-- `_build_field` on a `None` default. -/
theorem build_field_given_none (b : FieldBase) (kw : FieldKwargs) :
    _build_field b (.given none) none kw =
      .ok { spec := if b.required then .ellipsis else .value none,
            description := descrIfTruthy b.description,
            min_length := kw.min_length, max_length := kw.max_length,
            ge := kw.ge, le := kw.le } := by
  cases hr : b.required <;> simp [_build_field, hr]

/-- `_build_field` on a default factory. -/
theorem build_field_factory (b : FieldBase) (v : PyVal) (kw : FieldKwargs) :
    _build_field b .missing (some v) kw =
      if b.required then
        .error ("Required field '" ++ b.label ++
          "' cannot define a default factory.")
      else
        .ok { spec := .factory v, description := descrIfTruthy b.description,
              min_length := kw.min_length, max_length := kw.max_length,
              ge := kw.ge, le := kw.le } := by
  cases hr : b.required <;> simp [_build_field, hr]

/-- `EnumField.to_pydantic_field` with `allowed_values=None`. -/
theorem enum_tpf_none (b : FieldBase) (dflt : Option String) :
    to_pydantic_field (.enumF b none dflt) =
      .error "EnumField requires 'allowed_values' to be defined" := rfl

/-- `EnumField.to_pydantic_field` with empty `allowed_values`. -/
theorem enum_tpf_empty (b : FieldBase) (dflt : Option String) :
    to_pydantic_field (.enumF b (some []) dflt) =
      .error "EnumField requires 'allowed_values' to be defined" := rfl

/-- `EnumField.to_pydantic_field`, no default, non-empty values. -/
theorem enum_tpf_nodefault (b : FieldBase) (vs : List String) (h : vs ≠ []) :
    to_pydantic_field (.enumF b (some vs) none) =
      (_build_field b (.given none) none {}).map
        (fun fi =>
          (b.label, .enumT (pyCapitalize b.label ++ "Enum") (enumMembers vs),
            fi)) := by
  have hvs : vs.isEmpty = false := by
    cases vs with
    | nil => exact absurd rfl h
    | cons a t => rfl
  simp [to_pydantic_field, hvs]

/-- `EnumField.to_pydantic_field`, with default, non-empty values. -/
theorem enum_tpf_default (b : FieldBase) (vs : List String) (d : String)
    (h : vs ≠ []) :
    to_pydantic_field (.enumF b (some vs) (some d)) =
      match (enumMembers vs).find? (fun p => p.2 = d) with
      | none => .error ("default_str=" ++ d ++ " is not in allowed_values")
      | some p =>
          (_build_field b
              (.given (some (.vEnum (pyCapitalize b.label ++ "Enum") p.1 d)))
              none {}).map
            (fun fi =>
              (b.label,
                .enumT (pyCapitalize b.label ++ "Enum") (enumMembers vs), fi)) := by
  have hvs : vs.isEmpty = false := by
    cases vs with
    | nil => exact absurd rfl h
    | cons a t => rfl
  simp [to_pydantic_field, hvs]

/-- C7 counterexample: `required=True`, non-empty `allowed_values`, and
`default_str` one of them — the claim's conditions for *not* raising —
and yet `to_pydantic_field` raises `ValueError`. -/
theorem enum_required_default_raises :
    to_pydantic_field
        (.enumF { label := "color", required := true } (some ["red"])
          (some "red")) =
      .error "Required field 'color' cannot specify a default value." := rfl


/-- C7 (amended): `EnumField.to_pydantic_field` raises `ValueError` if
and only if `allowed_values` is `None` or empty, or `default_str` is set
and either matches no member value (members are keyed by the uppercased
value, a later value silently replacing an earlier one whose uppercase
collides) or the descriptor is also marked `required` (a required field
may not carry a default).  Otherwise it returns the label paired with an
enum type whose members are exactly that uppercase-keyed mapping of
`allowed_values`, whose default is the member for `default_str` when
set, and which is mandatory (`...`) when `required` without default. -/
theorem enum_to_pydantic_field_spec (b : FieldBase)
    (vals : Option (List String)) (dflt : Option String) :
    ((∃ e, to_pydantic_field (.enumF b vals dflt) = .error e) ↔
      (vals.getD [] = [] ∨
        ∃ d, dflt = some d ∧
          ((enumMembers (vals.getD [])).find? (fun p => p.2 = d) = none ∨
            b.required = true))) ∧
    (∀ k t fi, to_pydantic_field (.enumF b vals dflt) = .ok (k, t, fi) →
      k = b.label ∧
      t = .enumT (pyCapitalize b.label ++ "Enum")
            (enumMembers (vals.getD [])) ∧
      (∀ d, dflt = some d →
        ∃ mem, (enumMembers (vals.getD [])).find? (fun p => p.2 = d) =
            some (mem, d) ∧
          fi.spec =
            .value (some (.vEnum (pyCapitalize b.label ++ "Enum") mem d))) ∧
      (dflt = none → b.required = false → fi.spec = .value none) ∧
      (dflt = none → b.required = true → fi.spec = .ellipsis)) := by
  cases vals with
  | none =>
      refine ⟨⟨fun _ => Or.inl rfl, fun _ => ⟨_, enum_tpf_none b dflt⟩⟩, ?_⟩
      intro k t fi h
      rw [enum_tpf_none] at h
      exact absurd h (by simp)
  | some vs =>
      cases hvs : vs with
      | nil =>
          refine ⟨⟨fun _ => Or.inl rfl, fun _ => ⟨_, enum_tpf_empty b dflt⟩⟩, ?_⟩
          intro k t fi h
          rw [enum_tpf_empty] at h
          exact absurd h (by simp)
      | cons v0 vrest =>
          have hne : v0 :: vrest ≠ [] := by simp
          have hgd : (some (v0 :: vrest) : Option (List String)).getD [] =
              v0 :: vrest := rfl
          cases dflt with
          | none =>
              rw [hgd]
              constructor
              · constructor
                · rintro ⟨e, he⟩
                  rw [enum_tpf_nodefault b _ hne, build_field_given_none] at he
                  simp [Except.map] at he
                · rintro (habs | ⟨d, hd, _⟩)
                  · exact absurd habs (by simp)
                  · exact absurd hd (by simp)
              · intro k t fi h
                rw [enum_tpf_nodefault b _ hne, build_field_given_none] at h
                simp only [Except.map, Except.ok.injEq, Prod.mk.injEq] at h
                obtain ⟨h1, h2, h3⟩ := h
                refine ⟨h1.symm, h2.symm, by simp, ?_, ?_⟩
                · intro _ hr
                  rw [← h3]
                  simp [hr]
                · intro _ hr
                  rw [← h3]
                  simp [hr]
          | some d =>
              rw [hgd]
              cases hfind : (enumMembers (v0 :: vrest)).find?
                  (fun p => p.2 = d) with
              | none =>
                  constructor
                  · constructor
                    · intro _
                      exact Or.inr ⟨d, rfl, Or.inl hfind⟩
                    · intro _
                      refine ⟨"default_str=" ++ d ++
                        " is not in allowed_values", ?_⟩
                      rw [enum_tpf_default b _ d hne, hfind]
                  · intro k t fi h
                    rw [enum_tpf_default b _ d hne, hfind] at h
                    exact absurd h (by simp)
              | some p =>
                  have hp2 : p.2 = d := by
                    have := List.find?_some hfind
                    simpa using this
                  have hpeq : p = (p.1, d) := by
                    cases p with
                    | mk a c =>
                        simp only at hp2
                        simp [hp2]
                  cases hreq : b.required with
                  | true =>
                      constructor
                      · constructor
                        · intro _
                          exact Or.inr ⟨d, rfl, Or.inr rfl⟩
                        · intro _
                          refine ⟨"Required field '" ++ b.label ++
                            "' cannot specify a default value.", ?_⟩
                          rw [enum_tpf_default b _ d hne, hfind]
                          simp [build_field_given_some, hreq, Except.map]
                      · intro k t fi h
                        rw [enum_tpf_default b _ d hne, hfind] at h
                        simp [build_field_given_some, hreq, Except.map] at h
                  | false =>
                      constructor
                      · constructor
                        · rintro ⟨e, he⟩
                          rw [enum_tpf_default b _ d hne, hfind] at he
                          simp [build_field_given_some, hreq, Except.map] at he
                        · rintro (habs | ⟨d', hd', hcase⟩)
                          · exact absurd habs (by simp)
                          · exfalso
                            obtain rfl : d' = d := by
                              injection hd' with h'
                              exact h'.symm
                            cases hcase with
                            | inl hn =>
                                rw [hfind] at hn
                                exact absurd hn (by simp)
                            | inr hr => exact absurd hr (by simp)
                      · intro k t fi h
                        rw [enum_tpf_default b _ d hne, hfind] at h
                        simp only [build_field_given_some, hreq,
                          Bool.false_eq_true, if_false, Except.map,
                          Except.ok.injEq, Prod.mk.injEq] at h
                        obtain ⟨hk, ht, hfi⟩ := h
                        refine ⟨hk.symm, ht.symm, ?_, ?_, ?_⟩
                        · intro d' hd'
                          obtain rfl : d' = d := by
                            injection hd' with h'
                            exact h'.symm
                          refine ⟨p.1, ?_, ?_⟩
                          · rw [hfind, ← hpeq]
                          · rw [← hfi]
                        · intro habs _
                          exact absurd habs (by simp)
                        · intro habs _
                          exact absurd habs (by simp)

/-- C7 witness: the amended characterization applied to a valid
`EnumField` (label `"color"`, values `["red", "blue"]`, default
`"red"`, not required). -/
theorem enum_to_pydantic_field_spec_witness :
    ("color" : String) = ("color" : String) ∧
      PType.enumT "ColorEnum" [("RED", "red"), ("BLUE", "blue")] =
        .enumT (pyCapitalize "color" ++ "Enum")
          (enumMembers ((some ["red", "blue"] : Option (List String)).getD [])) :=
  ⟨((enum_to_pydantic_field_spec { label := "color" } (some ["red", "blue"])
      (some "red")).2 "color"
      (.enumT "ColorEnum" [("RED", "red"), ("BLUE", "blue")])
      { spec := .value (some (.vEnum "ColorEnum" "RED" "red")) } rfl).1,
   ((enum_to_pydantic_field_spec { label := "color" } (some ["red", "blue"])
      (some "red")).2 "color"
      (.enumT "ColorEnum" [("RED", "red"), ("BLUE", "blue")])
      { spec := .value (some (.vEnum "ColorEnum" "RED" "red")) } rfl).2.1⟩


/-- When `required` is set, a successful `_build_field` is always the
mandatory `...` field. -/
theorem build_field_ok_required (b : FieldBase) (da : DefaultArg)
    (df : Option PyVal) (kw : FieldKwargs) (fi : PFieldInfo)
    (hreq : b.required = true) (h : _build_field b da df kw = .ok fi) :
    fi.spec = .ellipsis := by
  unfold _build_field at h
  rw [if_pos (by simp [hreq])] at h
  cases da with
  | given v =>
      cases v with
      | some _ => simp at h
      | none =>
          cases df with
          | some _ => simp at h
          | none =>
              injection h with h'
              rw [← h']
  | missing =>
      cases df with
      | some _ => simp at h
      | none =>
          injection h with h'
          rw [← h']

/-- A model field dict containing a mandatory field whose key the data
lacks never validates. -/
theorem validate_missing_mandatory (d : Jdict) (k : String) (t : PType)
    (fi : PFieldInfo) (hlook : d.lookup k = none)
    (hmand : fi.spec.isMandatory = true) :
    ∀ defs : List Entry, (k, t, fi) ∈ defs →
      ∃ e, validateFields defs d = .error e := by
  intro defs
  induction defs with
  | nil =>
      intro hmem
      simp at hmem
  | cons ent rest ih =>
      intro hmem
      rcases List.mem_cons.mp hmem with heq | hmem'
      · rw [show ent = (k, t, fi) from heq.symm]
        cases hs : fi.spec with
        | value v =>
            rw [hs] at hmand
            simp [PDefault.isMandatory] at hmand
        | factory v =>
            rw [hs] at hmand
            simp [PDefault.isMandatory] at hmand
        | ellipsis =>
            exact ⟨"Field required: " ++ k,
              by simp [validateFields, hlook, hs]⟩
        | unset =>
            exact ⟨"Field required: " ++ k,
              by simp [validateFields, hlook, hs]⟩
      · obtain ⟨e, he⟩ := ih hmem'
        obtain ⟨k0, t0, fi0⟩ := ent
        cases hl0 : d.lookup k0 with
        | some v =>
            cases hv : validateValue t0 v with
            | error e0 => exact ⟨e0, by simp [validateFields, hl0, hv]⟩
            | ok v' => exact ⟨e, by simp [validateFields, hl0, hv, he]⟩
        | none =>
            cases hs : fi0.spec with
            | value v =>
                exact ⟨e, by simp [validateFields, hl0, hs, he, Except.map]⟩
            | factory v =>
                exact ⟨e, by simp [validateFields, hl0, hs, he, Except.map]⟩
            | ellipsis =>
                exact ⟨"Field required: " ++ k0,
                  by simp [validateFields, hl0, hs]⟩
            | unset =>
                exact ⟨"Field required: " ++ k0,
                  by simp [validateFields, hl0, hs]⟩

/-- C6 counterexample: a `BoolField` with `required=True` and a non-None
default neither becomes mandatory nor raises `ValueError`:
`BoolField.to_pydantic_field` bypasses `_build_field`, keeps the
default, and a record built without the field still validates. -/
theorem bool_required_ignored :
    to_pydantic_field
        (.boolF { label := "active", required := true } (some true)) =
      .ok ("active", .bool, { spec := .value (some (.vBool true)) }) ∧
    (PDefault.value (some (.vBool true))).isMandatory = false ∧
    validateFields
        [("active", .bool, { spec := .value (some (.vBool true)) })] [] =
      .ok [("active", .vBool true)] :=
  ⟨rfl, rfl, rfl⟩

/-- C6 (amended): the `required` flag is honored exactly by the
descriptors routed through `_build_field` (`StrField`, `IntField`,
`FloatField`, `EnumField`, `JsonField`, `ListField`): for those,
`required=True` yields a mandatory (`...`) field, and together with a
non-None default (or the json/list default factory) it raises
`ValueError` instead.  `BoolField`, `UuidField`, `DateField`,
`DateTimeField` and `EmailField` call `pydantic.Field` directly: they
ignore `required`, never raise, and always produce an optional field
with their default.  `ObjectField` always produces a mandatory field,
`required` or not.  A mandatory field missing from the data makes
validation fail. -/
theorem required_flag_spec :
    (∀ (f : TypeFieldsUnion) (k : String) (t : PType) (fi : PFieldInfo),
        f.base.required = true → usesBuildField f = true →
        to_pydantic_field f = .ok (k, t, fi) → fi.spec = .ellipsis) ∧
    (∀ (f : TypeFieldsUnion) (k : String) (t : PType) (fi : PFieldInfo),
        f.base.required = true → ignoresRequired f = true →
        to_pydantic_field f = .ok (k, t, fi) →
        fi.spec.isMandatory = false) ∧
    (∀ (b : FieldBase) (fs : List DynField) (k : String) (t : PType)
        (fi : PFieldInfo),
        to_pydantic_field (.objectF b fs) = .ok (k, t, fi) →
        fi.spec = .unset) ∧
    (∀ f : TypeFieldsUnion, f.base.required = true →
        usesBuildField f = true → hasNonNoneDefault f = true →
        ∀ k t fi, to_pydantic_field f ≠ .ok (k, t, fi)) ∧
    (∀ f : TypeFieldsUnion, ignoresRequired f = true →
        ∃ k t fi, to_pydantic_field f = .ok (k, t, fi)) ∧
    (∀ (defs : List Entry) (d : Jdict) (k : String) (t : PType)
        (fi : PFieldInfo),
        (k, t, fi) ∈ defs → d.lookup k = none →
        fi.spec.isMandatory = true →
        ∃ e, validateFields defs d = .error e) := by
  refine ⟨?_, ?_, ?_, ?_, ?_, ?_⟩
  · intro f k t fi hreq hu h
    cases f <;> simp [usesBuildField] at hu <;>
      simp only [to_pydantic_field] at h <;> repeat' split at h
    all_goals
      first
        | (obtain ⟨x, hx, hy⟩ := except_map_ok _ _ _ h
           simp only [Prod.mk.injEq] at hy
           rw [hy.2.2]
           exact build_field_ok_required _ _ _ _ _ hreq hx)
        | simp at h
  · intro f k t fi hreq hig h
    cases f <;> simp [ignoresRequired] at hig <;>
      simp only [to_pydantic_field, Except.ok.injEq, Prod.mk.injEq] at h
    all_goals
      rw [← h.2.2]
      rfl
  · intro b fs k t fi h
    simp only [to_pydantic_field] at h
    obtain ⟨x, hx, hy⟩ := except_map_ok _ _ _ h
    simp only [Prod.mk.injEq] at hy
    rw [hy.2.2]
  · intro f hreq hu hd k t fi h
    cases f with
    | strF b dv c =>
        cases dv with
        | none => simp [hasNonNoneDefault] at hd
        | some s =>
            simp only [TypeFieldsUnion.base] at hreq
            simp [to_pydantic_field, build_field_given_some, hreq,
              Except.map] at h
    | intF b dv c =>
        cases dv with
        | none => simp [hasNonNoneDefault] at hd
        | some n =>
            simp only [TypeFieldsUnion.base] at hreq
            simp [to_pydantic_field, build_field_given_some, hreq,
              Except.map] at h
    | floatF b dv c =>
        cases dv with
        | none => simp [hasNonNoneDefault] at hd
        | some q =>
            simp only [TypeFieldsUnion.base] at hreq
            simp [to_pydantic_field, build_field_given_some, hreq,
              Except.map] at h
    | jsonF b dv =>
        cases dv with
        | none => simp [hasNonNoneDefault] at hd
        | some dd =>
            simp only [TypeFieldsUnion.base] at hreq
            simp [to_pydantic_field, build_field_factory, hreq,
              Except.map] at h
    | listF b dv =>
        cases dv with
        | none => simp [hasNonNoneDefault] at hd
        | some dl =>
            simp only [TypeFieldsUnion.base] at hreq
            simp [to_pydantic_field, build_field_factory, hreq,
              Except.map] at h
    | enumF b vals dflt =>
        cases dflt with
        | none => simp [hasNonNoneDefault] at hd
        | some dstr =>
            cases vals with
            | none => simp [to_pydantic_field] at h
            | some vs =>
                cases hvs : vs with
                | nil =>
                    subst hvs
                    rw [enum_tpf_empty] at h
                    simp at h
                | cons v0 vr =>
                    subst hvs
                    rw [enum_tpf_default b _ dstr (by simp)] at h
                    cases hfind : (enumMembers (v0 :: vr)).find?
                        (fun p => p.2 = dstr) with
                    | none =>
                        rw [hfind] at h
                        simp at h
                    | some p =>
                        rw [hfind] at h
                        simp only [TypeFieldsUnion.base] at hreq
                        simp [build_field_given_some, hreq,
                          Except.map] at h
    | boolF b dv => simp [usesBuildField] at hu
    | dateF b dv => simp [usesBuildField] at hu
    | datetimeF b dv => simp [usesBuildField] at hu
    | emailF b dv => simp [usesBuildField] at hu
    | uuidF b dv => simp [usesBuildField] at hu
    | objectF b fs => simp [usesBuildField] at hu
  · intro f hig
    cases f <;> simp [ignoresRequired] at hig
    all_goals exact ⟨_, _, _, rfl⟩
  · intro defs d k t fi hm hl hman
    exact validate_missing_mandatory d k t fi hl hman defs hm

/-- C6 witness: the `_build_field` clause applied to a required
`StrField` without default. -/
theorem required_flag_spec_witness :
    ({ spec := .ellipsis } : PFieldInfo).spec = .ellipsis :=
  required_flag_spec.1 (.strF { label := "s", required := true } none none)
    "s" .str { spec := .ellipsis } rfl rfl rfl


/-- Inversion of `buildDefsLoop` succeeding: the produced entries are
`defsOf` and the accumulator receives them via dict assignment in
order. -/
theorem buildDefsLoop_ok (fields : List DynField) :
    ∀ (acc : List Entry) (m : List Entry), buildDefsLoop fields acc = .ok m →
      ∃ l, defsOf fields = .ok l ∧
        m = l.foldl (fun a x => dictAssign a x.1 x.2) acc := by
  induction fields with
  | nil =>
      intro acc m h
      injection h with h'
      exact ⟨[], rfl, h'.symm⟩
  | cons f fs ih =>
      intro acc m h
      simp only [buildDefsLoop] at h
      cases hopt : to_pydantic_field_opt f with
      | none =>
          rw [hopt] at h
          obtain ⟨l, hl, hm⟩ := ih acc m h
          exact ⟨l, by simp [defsOf, hopt, hl], hm⟩
      | some r =>
          cases r with
          | error e =>
              rw [hopt] at h
              simp at h
          | ok x =>
              obtain ⟨k, t, fi⟩ := x
              rw [hopt] at h
              obtain ⟨l, hl, hm⟩ := ih (dictAssign acc k (t, fi)) m h
              refine ⟨(k, t, fi) :: l, by simp [defsOf, hopt, hl], ?_⟩
              simp [hm]

/-- Looking a key up after folding dict assignments: the last assignment
for the key wins, falling back to the accumulator. -/
theorem foldl_assign_lookup (l : List Entry) :
    ∀ (acc : List Entry) (k : String),
      (l.foldl (fun a x => dictAssign a x.1 x.2) acc).lookup k =
        match l.reverse.lookup k with
        | some v => some v
        | none => acc.lookup k := by
  induction l with
  | nil =>
      intro acc k
      simp
  | cons x l ih =>
      obtain ⟨xk, xv⟩ := x
      intro acc k
      rw [List.foldl_cons, ih, List.reverse_cons, lookup_append,
        lookup_dictAssign]
      cases hm : l.reverse.lookup k with
      | some v => simp
      | none =>
          by_cases hk : k = xk
          · subst hk
            simp [List.lookup]
          · have hb : (k == xk) = false := by simp [hk]
            simp [List.lookup, hb, hk]


/-- C2: a model built by `build_dynamic_model` is named as asked and its
field dict holds exactly the keys produced by the descriptors'
`to_pydantic_field`, the later descriptor winning on a repeated key (the
lookup equals the last produced definition for the key); descriptors
without a `to_pydantic_field` method (bare `DataTypeFieldBase`
instances) contribute nothing; and each produced entry's value type is
the descriptor's declared one. -/
theorem build_dynamic_model_spec :
    (∀ (name : String) (fields : List DynField) (m : DynModel),
        build_dynamic_model name fields = .ok m →
        m.name = name ∧
        ∃ l, defsOf fields = .ok l ∧
          ∀ k, m.fieldDefs.lookup k = l.reverse.lookup k) ∧
    (∀ f : DynField,
        to_pydantic_field_opt f = none ↔ ∃ b, f = .plainBase b) ∧
    (∀ (f : DynField) (k : String) (t : PType) (fi : PFieldInfo),
        to_pydantic_field_opt f = some (.ok (k, t, fi)) →
        declaredTypeOk f t) := by
  refine ⟨?_, ?_, ?_⟩
  · intro name fields m h
    obtain ⟨defs, hdefs, hm⟩ := except_map_ok _ _ _ h
    obtain ⟨l, hl, hfold⟩ := buildDefsLoop_ok fields [] defs hdefs
    subst hm
    refine ⟨rfl, l, hl, ?_⟩
    intro k
    show defs.lookup k = _
    rw [hfold, foldl_assign_lookup]
    cases hr : l.reverse.lookup k <;> simp [List.lookup]
  · intro f
    cases f with
    | typed tf => simp [to_pydantic_field_opt]
    | plainBase b => simp [to_pydantic_field_opt]
  · intro f k t fi h
    cases f with
    | plainBase b => simp [to_pydantic_field_opt] at h
    | typed tf =>
        simp only [to_pydantic_field_opt, Option.some.injEq] at h
        cases tf <;> simp only [to_pydantic_field] at h <;>
          repeat' split at h
        all_goals
          first
            | (simp only [Except.ok.injEq, Prod.mk.injEq] at h
               simp only [declaredTypeOk]
               exact h.2.1.symm)
            | (obtain ⟨x, hx, hy⟩ := except_map_ok _ _ _ h
               simp only [Prod.mk.injEq] at hy
               simp only [declaredTypeOk]
               first
                 | exact hy.2.1
                 | exact ⟨_, hy.2.1⟩)
            | simp at h

/-- C2 witness: a bool descriptor and a bare base instance; the base
contributes nothing and the model holds only the bool field. -/
theorem build_dynamic_model_spec_witness :
    (DynModel.mk "M" [("flag", PType.bool, { spec := .value none })]).name =
      "M" ∧
    ∃ l, defsOf [DynField.typed (.boolF { label := "Flag" } none),
        DynField.plainBase { label := "ignored" }] = .ok l ∧
      ∀ k, (DynModel.mk "M"
          [("flag", PType.bool, { spec := .value none })]).fieldDefs.lookup
            k = l.reverse.lookup k :=
  build_dynamic_model_spec.1 "M"
    [DynField.typed (.boolF { label := "Flag" } none),
      DynField.plainBase { label := "ignored" }]
    (DynModel.mk "M" [("flag", PType.bool, { spec := .value none })]) rfl


/-- Lookup in the overlay part of `dictOr`: keys of `a` with `b`'s value
when `b` has them. -/
theorem lookup_map_overlay (a b : Jdict) (k : String) :
    (a.map (fun p =>
        match b.lookup p.1 with
        | some w => (p.1, w)
        | none => p)).lookup k =
      match a.lookup k with
      | some v =>
          match b.lookup k with
          | some w => some w
          | none => some v
      | none => none := by
  induction a with
  | nil => simp [List.lookup]
  | cons p a ih =>
      obtain ⟨pk, pv⟩ := p
      by_cases hk : k = pk
      · subst hk
        cases hb : b.lookup k <;> simp [List.lookup, hb]
      · have hbeq : (k == pk) = false := by simp [hk]
        cases hb : b.lookup pk <;> simp [List.lookup, hb, hbeq, ih]

/-- Lookup in the appended part of `dictOr`: `b`'s entries whose key `a`
lacks. -/
theorem lookup_filter_new (a b : Jdict) (k : String) :
    (b.filter (fun p => (a.lookup p.1).isNone)).lookup k =
      match a.lookup k with
      | some _ => none
      | none => b.lookup k := by
  induction b with
  | nil => cases a.lookup k <;> simp [List.lookup]
  | cons p b ih =>
      obtain ⟨pk, pv⟩ := p
      by_cases hk : k = pk
      · subst hk
        cases ha : a.lookup k <;> simp [List.filter, List.lookup, ha, ih]
      · have hbeq : (k == pk) = false := by simp [hk]
        cases ha : a.lookup pk <;>
          cases ha' : a.lookup k <;>
          simp [List.filter, List.lookup, ha, ha', hbeq, ih]

/-- The Python dict-union law: `(a | b)[k]` is `b[k]` when present, else
`a[k]`. -/
theorem dictOr_lookup (a b : Jdict) (k : String) :
    (dictOr a b).lookup k =
      match b.lookup k with
      | some w => some w
      | none => a.lookup k := by
  unfold dictOr
  rw [lookup_append, lookup_map_overlay, lookup_filter_new]
  cases ha : a.lookup k <;> cases hb : b.lookup k <;> simp

/-- Inversion of the surplus-updates loop: element-wise validation. -/
theorem validateList_spec (v : Jdict → Except String Jdict) :
    ∀ (u res : List Jdict), validateList v u = .ok res →
      res.length = u.length ∧
      ∀ (i : Nat) (ui : Jdict), u[i]? = some ui →
        ∃ ti, res[i]? = some ti ∧ v ui = .ok ti := by
  intro u
  induction u with
  | nil =>
      intro res h
      injection h with h'
      subst h'
      exact ⟨rfl, by intro i ui hu; simp at hu⟩
  | cons d ds ih =>
      intro res h
      simp only [validateList] at h
      cases hv : v d with
      | error e =>
          rw [hv] at h
          simp at h
      | ok t =>
          rw [hv] at h
          obtain ⟨ts, hts, hres⟩ := except_map_ok _ _ _ h
          obtain ⟨hlen, helem⟩ := ih ts hts
          subst hres
          refine ⟨by simp [hlen], ?_⟩
          intro i ui hu
          cases i with
          | zero =>
              simp only [List.getElem?_cons_zero, Option.some.injEq] at hu
              exact ⟨t, by simp, by rw [← hu]; exact hv⟩
          | succ n =>
              simp only [List.getElem?_cons_succ] at hu ⊢
              exact helem n ui hu

/-- Inversion of the fused mutate loop: the result pairs stored records
with updates index-wise (update keys winning), keeps unmatched stored
records as they are, and validates surplus updates standalone. -/
theorem mutateLoop_spec (v : Jdict → Except String Jdict) :
    ∀ (s u res : List Jdict), mutateLoop v s u = .ok res →
      res.length = max s.length u.length ∧
      (∀ (i : Nat) (ri ui : Jdict), s[i]? = some ri → u[i]? = some ui →
        ∃ ti, res[i]? = some ti ∧ v (dictOr ri ui) = .ok ti) ∧
      (∀ (i : Nat) (ri : Jdict), s[i]? = some ri → u[i]? = none →
        ∃ ti, res[i]? = some ti ∧ v ri = .ok ti) ∧
      (∀ (i : Nat) (ui : Jdict), s[i]? = none → u[i]? = some ui →
        ∃ ti, res[i]? = some ti ∧ v ui = .ok ti) := by
  intro s
  induction s with
  | nil =>
      intro u res h
      obtain ⟨hlen, helem⟩ := validateList_spec v u res h
      refine ⟨by simp [hlen], ?_, ?_, ?_⟩
      · intro i ri ui hs _
        simp at hs
      · intro i ri hs _
        simp at hs
      · intro i ui _ hu
        exact helem i ui hu
  | cons r rs ih =>
      intro u res h
      cases u with
      | nil =>
          simp only [mutateLoop] at h
          cases hv : v r with
          | error e =>
              rw [hv] at h
              simp at h
          | ok t =>
              rw [hv] at h
              obtain ⟨ts, hts, hres⟩ := except_map_ok _ _ _ h
              obtain ⟨hlen, _, helem2, _⟩ := ih [] ts hts
              subst hres
              refine ⟨by simp [hlen], ?_, ?_, ?_⟩
              · intro i ri ui _ hu
                simp at hu
              · intro i ri hs _
                cases i with
                | zero =>
                    simp only [List.getElem?_cons_zero,
                      Option.some.injEq] at hs
                    exact ⟨t, by simp, by rw [← hs]; exact hv⟩
                | succ n =>
                    simp only [List.getElem?_cons_succ] at hs ⊢
                    exact helem2 n ri hs (by simp)
              · intro i ui _ hu
                simp at hu
      | cons uu us =>
          simp only [mutateLoop] at h
          cases hv : v (dictOr r uu) with
          | error e =>
              rw [hv] at h
              simp at h
          | ok t =>
              rw [hv] at h
              obtain ⟨ts, hts, hres⟩ := except_map_ok _ _ _ h
              obtain ⟨hlen, helem1, helem2, helem3⟩ := ih us ts hts
              subst hres
              refine ⟨?_, ?_, ?_, ?_⟩
              · simp only [List.length_cons, hlen]
                omega
              · intro i ri ui hs hu
                cases i with
                | zero =>
                    simp only [List.getElem?_cons_zero,
                      Option.some.injEq] at hs hu
                    exact ⟨t, by simp, by rw [← hs, ← hu]; exact hv⟩
                | succ n =>
                    simp only [List.getElem?_cons_succ] at hs hu ⊢
                    exact helem1 n ri ui hs hu
              · intro i ri hs hu
                cases i with
                | zero => simp at hu
                | succ n =>
                    simp only [List.getElem?_cons_succ] at hs hu ⊢
                    exact helem2 n ri hs hu
              · intro i ui hs hu
                cases i with
                | zero => simp at hs
                | succ n =>
                    simp only [List.getElem?_cons_succ] at hs hu ⊢
                    exact helem3 n ui hs hu


/-- C10: a successful `mutate_records` call returns exactly
`max(len(stored), len(updates))` validated records, in order: index
`i < len(stored)` is `stored[i]` overlaid with `updates[i]` when that
exists (update keys winning — the dict-union law is stated last) and
`stored[i]` unchanged otherwise, and each surplus update is validated as
a standalone record. -/
theorem mutate_records_spec (r : RecordSchemaRegistry) (sid : Nat)
    (stored updates res : List Jdict)
    (h : r.mutate_records sid stored updates = .ok res) :
    ∃ m, r.build_model sid = .ok m ∧
      res.length = max stored.length updates.length ∧
      (∀ (i : Nat) (ri ui : Jdict), stored[i]? = some ri →
        updates[i]? = some ui →
        ∃ ti, res[i]? = some ti ∧ m.validate (dictOr ri ui) = .ok ti) ∧
      (∀ (i : Nat) (ri : Jdict), stored[i]? = some ri →
        updates[i]? = none →
        ∃ ti, res[i]? = some ti ∧ m.validate ri = .ok ti) ∧
      (∀ (i : Nat) (ui : Jdict), stored[i]? = none →
        updates[i]? = some ui →
        ∃ ti, res[i]? = some ti ∧ m.validate ui = .ok ti) ∧
      (∀ (a b : Jdict) (k : String),
        (dictOr a b).lookup k =
          match b.lookup k with
          | some w => some w
          | none => a.lookup k) := by
  unfold RecordSchemaRegistry.mutate_records at h
  cases hb : r.build_model sid with
  | error e =>
      rw [hb] at h
      simp at h
  | ok m =>
      rw [hb] at h
      obtain ⟨hlen, h1, h2, h3⟩ := mutateLoop_spec m.validate stored updates res h
      exact ⟨m, rfl, hlen, h1, h2, h3, fun a b k => dictOr_lookup a b k⟩

/-- C10 witness: one stored record, two updates, over a one-bool-field
schema: the first result is the overlaid first record, the surplus
update is validated standalone. -/
theorem mutate_records_spec_witness :
    ∃ m, (RecordSchemaRegistry.mk [(1,
        { id := 1, name := "M",
          field_definitions :=
            some [.boolF { label := "b" } none] })]).build_model 1 =
          .ok m ∧
      ([[("b", PyVal.vBool false)], [("b", PyVal.vBool true)]] :
          List Jdict).length =
        max ([[("b", PyVal.vBool true)]] : List Jdict).length
          ([[("b", PyVal.vBool false)], [("b", PyVal.vBool true)]] :
            List Jdict).length ∧
      (∀ (i : Nat) (ri ui : Jdict),
        ([[("b", PyVal.vBool true)]] : List Jdict)[i]? = some ri →
        ([[("b", PyVal.vBool false)], [("b", PyVal.vBool true)]] :
          List Jdict)[i]? = some ui →
        ∃ ti, ([[("b", PyVal.vBool false)], [("b", PyVal.vBool true)]] :
            List Jdict)[i]? = some ti ∧
          m.validate (dictOr ri ui) = .ok ti) ∧
      (∀ (i : Nat) (ri : Jdict),
        ([[("b", PyVal.vBool true)]] : List Jdict)[i]? = some ri →
        ([[("b", PyVal.vBool false)], [("b", PyVal.vBool true)]] :
          List Jdict)[i]? = none →
        ∃ ti, ([[("b", PyVal.vBool false)], [("b", PyVal.vBool true)]] :
            List Jdict)[i]? = some ti ∧ m.validate ri = .ok ti) ∧
      (∀ (i : Nat) (ui : Jdict),
        ([[("b", PyVal.vBool true)]] : List Jdict)[i]? = none →
        ([[("b", PyVal.vBool false)], [("b", PyVal.vBool true)]] :
          List Jdict)[i]? = some ui →
        ∃ ti, ([[("b", PyVal.vBool false)], [("b", PyVal.vBool true)]] :
            List Jdict)[i]? = some ti ∧ m.validate ui = .ok ti) ∧
      (∀ (a b : Jdict) (k : String),
        (dictOr a b).lookup k =
          match b.lookup k with
          | some w => some w
          | none => a.lookup k) :=
  mutate_records_spec
    (RecordSchemaRegistry.mk [(1,
      { id := 1, name := "M",
        field_definitions := some [.boolF { label := "b" } none] })])
    1 [[("b", PyVal.vBool true)]]
    [[("b", PyVal.vBool false)], [("b", PyVal.vBool true)]]
    [[("b", PyVal.vBool false)], [("b", PyVal.vBool true)]] rfl

end Dynafield
